import Mathlib

/-!
# heucuva/actor: the actor manager and its capability dispatchers

A shallow embedding of `manager.go`, `util.go` and `actor.go`.

* A Go map is an association list (or the nil map); a channel of capacity one is its
  buffer length and its closed flag; a `*time.Ticker` is an address, `none` being nil.
* A call of an exported method is one atomic step on a quiescent manager (no other call
  is inside the manager).  A call ends by returning, by panicking, or suspended for ever
  on a channel operation; the state at that point is part of the result.
* The methods an actor implements are given by a `Capabilities` table.  Every method
  invocation is appended to the `events` trace of the manager, so "is invoked exactly
  once" is a statement about that trace.  Capability methods are taken to return the
  value the table gives and not to call back into the manager.
-/

namespace ActorPkg

/-! ## Go values -/

/-- Go `error` values of the package (`errors.New` gives each its own identity), and
errors made elsewhere, told apart by a code.  The nil error is `none : Option Error`. -/
inductive Error where
  | ErrManagerStopped
  | ErrActorNotFound
  | ErrActorAlreadyAdded
  | ErrTickIntervalCannotBeZero
  | ErrActorSpawn
  | other (code : Nat)
deriving DecidableEq, Repr

/-- The type `time.Duration`: a count of nanoseconds. -/
abbrev Duration := Int

/-- The type `time.Time`, as nanoseconds on the wall clock. -/
abbrev Time := Int

/-- The type `*time.Ticker`: the address of a ticker, `none` for the nil pointer. -/
abbrev TickerPtr := Option Nat

/-- The constant `DefaultTickInterval = time.Millisecond * 200`. -/
def DefaultTickInterval : Duration := 1000000 * 200

/-- The struct `actorMgrInfo`. -/
structure actorMgrInfo where
  tickGroup : TickerPtr
deriving DecidableEq, Repr

/-- The type `Actor` is `interface{}`: any Go value.  Two kinds of values reach the
functions of the package: objects of the caller (compared by identity, here a number),
and, inside `Manager.Stop`, values of the struct `actorMgrInfo`. -/
inductive Actor where
  | object (id : Nat)
  | mgrInfo (info : actorMgrInfo)
deriving DecidableEq, Repr

/-- The struct `actorList`; the map `list` used as a set is the list of its keys. -/
structure actorList where
  list : List Actor
  lastTick : Time
deriving DecidableEq, Repr

/-! ## Go maps -/

/-- Lookup in an association list. -/
def assocGet {K V : Type} [DecidableEq K] : List (K × V) → K → Option V
  | [], _ => none
  | (k1, v) :: rest, k => if k1 = k then some v else assocGet rest k

/-- Removal of every binding of a key. -/
def assocDel {K V : Type} [DecidableEq K] (l : List (K × V)) (k : K) : List (K × V) :=
  l.filter (fun kv => decide (kv.1 ≠ k))

/-- Binding of a key, replacing the bindings it had. -/
def assocSet {K V : Type} [DecidableEq K] (l : List (K × V)) (k : K) (v : V) : List (K × V) :=
  (k, v) :: assocDel l k

/-- A Go map: the nil map, or a map made by `make` holding the given entries. -/
inductive GoMap (K V : Type) where
  | nil : GoMap K V
  | mk (entries : List (K × V)) : GoMap K V
deriving DecidableEq, Repr

namespace GoMap

variable {K V : Type}

/-- The entries of a map; the nil map has none. -/
def entries : GoMap K V → List (K × V)
  | .nil => []
  | .mk l => l

/-- Whether the map is the nil map. -/
def isNil : GoMap K V → Bool
  | .nil => true
  | .mk _ => false

/-- The read `v, ok := m[k]`; reading the nil map finds nothing. -/
def get? [DecidableEq K] (m : GoMap K V) (k : K) : Option V :=
  assocGet m.entries k

/-- The builtin `delete(m, k)`; a no-op on the nil map. -/
def delete [DecidableEq K] : GoMap K V → K → GoMap K V
  | .nil, _ => .nil
  | .mk l, k => .mk (assocDel l k)

/-- The write `m[k] = v` on a map known not to be nil (the caller checks `isNil`, where
Go panics). -/
def store [DecidableEq K] : GoMap K V → K → V → GoMap K V
  | .nil, _, _ => .nil
  | .mk l, k, v => .mk (assocSet l k v)

/-- The builtin `len(m)`. -/
def len (m : GoMap K V) : Nat := m.entries.length

/-- The keys of the map. -/
def keys (m : GoMap K V) : List K := m.entries.map Prod.fst

end GoMap

/-! ## Channels of capacity one -/

/-- A buffered channel of `struct{}`: the number of buffered elements, the capacity it
was made with, and whether it has been closed. -/
structure Chan where
  len : Nat
  cap : Nat
  closed : Bool
deriving DecidableEq, Repr

/-- The channel `make(chan struct{}, 1)`. -/
def Chan.make1 : Chan := { len := 0, cap := 1, closed := false }

/-- What a send does when no goroutine is receiving. -/
inductive SendResult where
  | sent (c : Chan)
  | blocks
  | panics
deriving DecidableEq, Repr

/-- The statement `c <- struct{}{}` with no receiver waiting: a send on a closed channel
panics, a send on a full buffer suspends the sender, otherwise the element is buffered. -/
def Chan.send (c : Chan) : SendResult :=
  if c.closed then .panics
  else if c.len < c.cap then .sent { c with len := c.len + 1 }
  else .blocks

/-- The builtin `close(c)`; `none` is the panic on closing a closed channel. -/
def Chan.close (c : Chan) : Option Chan :=
  if c.closed then none else some { c with closed := true }

/-! ## Capabilities (`actor.go`, `util.go`) -/

/-- The methods the caller's objects implement.  For each of the fourteen capability
interfaces, `none` says the object does not implement it and `some r` gives what the
method returns. -/
structure Capabilities where
  PostSpawnInitialize : Nat → Option (Option Error)
  ExecuteConstruction : Nat → Option (Option Error)
  OnConstruction : Nat → Option (Option Error)
  PostActorConstruction : Nat → Option (Option Error)
  PreInitializeComponents : Nat → Option (Option Error)
  InitializeComponents : Nat → Option (Option Error)
  PostInitializeComponents : Nat → Option (Option Error)
  OnActorSpawned : Nat → Option (Option Error)
  BeginPlay : Nat → Option (Option Error)
  Tick : Nat → Option (Duration → Option Error)
  WantTick : Nat → Option (Bool × Option Error)
  EndPlay : Nat → Option (Option Error → Option Error)
  BeginDestroy : Nat → Option (Option Error)
  FinishDestroy : Nat → Option (Option Error)

/-- The objects that implement nothing. -/
def Capabilities.none : Capabilities :=
  { PostSpawnInitialize := fun _ => Option.none
    ExecuteConstruction := fun _ => Option.none
    OnConstruction := fun _ => Option.none
    PostActorConstruction := fun _ => Option.none
    PreInitializeComponents := fun _ => Option.none
    InitializeComponents := fun _ => Option.none
    PostInitializeComponents := fun _ => Option.none
    OnActorSpawned := fun _ => Option.none
    BeginPlay := fun _ => Option.none
    Tick := fun _ => Option.none
    WantTick := fun _ => Option.none
    EndPlay := fun _ => Option.none
    BeginDestroy := fun _ => Option.none
    FinishDestroy := fun _ => Option.none }

/-- The type assertion `t, ok := a.(XIntf)`: a caller's object has the methods of the
table, a value of the struct `actorMgrInfo` has no method at all. -/
def assertIntf {β : Type} (methods : Nat → Option β) : Actor → Option β
  | .object id => methods id
  | .mgrInfo _ => Option.none

/-- A method invocation on an actor, with its arguments. -/
inductive Event where
  | PostSpawnInitialize (a : Actor)
  | ExecuteConstruction (a : Actor)
  | OnConstruction (a : Actor)
  | PostActorConstruction (a : Actor)
  | PreInitializeComponents (a : Actor)
  | InitializeComponents (a : Actor)
  | PostInitializeComponents (a : Actor)
  | OnActorSpawned (a : Actor)
  | BeginPlay (a : Actor)
  | Tick (a : Actor) (deltaTime : Duration)
  | WantTick (a : Actor)
  | EndPlay (a : Actor) (endPlayReason : Option Error)
  | BeginDestroy (a : Actor)
  | FinishDestroy (a : Actor)
deriving DecidableEq, Repr

/-- The function `PostSpawnInitialize` of `util.go`. -/
def PostSpawnInitialize (env : Capabilities) (a : Actor) : List Event × Option Error :=
  match assertIntf env.PostSpawnInitialize a with
  | some r => ([Event.PostSpawnInitialize a], r)
  | none => ([], none)

/-- The function `ExecuteConstruction` of `util.go`. -/
def ExecuteConstruction (env : Capabilities) (a : Actor) : List Event × Option Error :=
  match assertIntf env.ExecuteConstruction a with
  | some r => ([Event.ExecuteConstruction a], r)
  | none => ([], none)

/-- The function `OnConstruction` of `util.go`. -/
def OnConstruction (env : Capabilities) (a : Actor) : List Event × Option Error :=
  match assertIntf env.OnConstruction a with
  | some r => ([Event.OnConstruction a], r)
  | none => ([], none)

/-- The function `PostActorConstruction` of `util.go`. -/
def PostActorConstruction (env : Capabilities) (a : Actor) : List Event × Option Error :=
  match assertIntf env.PostActorConstruction a with
  | some r => ([Event.PostActorConstruction a], r)
  | none => ([], none)

/-- The function `PreInitializeComponents` of `util.go`. -/
def PreInitializeComponents (env : Capabilities) (a : Actor) : List Event × Option Error :=
  match assertIntf env.PreInitializeComponents a with
  | some r => ([Event.PreInitializeComponents a], r)
  | none => ([], none)

/-- The function `InitializeComponents` of `util.go`. -/
def InitializeComponents (env : Capabilities) (a : Actor) : List Event × Option Error :=
  match assertIntf env.InitializeComponents a with
  | some r => ([Event.InitializeComponents a], r)
  | none => ([], none)

/-- The function `PostInitializeComponents` of `util.go`. -/
def PostInitializeComponents (env : Capabilities) (a : Actor) : List Event × Option Error :=
  match assertIntf env.PostInitializeComponents a with
  | some r => ([Event.PostInitializeComponents a], r)
  | none => ([], none)

/-- The function `OnActorSpawned` of `util.go`. -/
def OnActorSpawned (env : Capabilities) (a : Actor) : List Event × Option Error :=
  match assertIntf env.OnActorSpawned a with
  | some r => ([Event.OnActorSpawned a], r)
  | none => ([], none)

/-- The function `BeginDestroy` of `util.go`. -/
def BeginDestroy (env : Capabilities) (a : Actor) : List Event × Option Error :=
  match assertIntf env.BeginDestroy a with
  | some r => ([Event.BeginDestroy a], r)
  | none => ([], none)

/-- The function `FinishDestroy` of `util.go`. -/
def FinishDestroy (env : Capabilities) (a : Actor) : List Event × Option Error :=
  match assertIntf env.FinishDestroy a with
  | some r => ([Event.FinishDestroy a], r)
  | none => ([], none)

/-- The function `BeginPlay` of `util.go`: the invocations made and the error returned. -/
def BeginPlay (env : Capabilities) (a : Actor) : List Event × Option Error :=
  match assertIntf env.BeginPlay a with
  | some r => ([Event.BeginPlay a], r)
  | none => ([], none)

/-- The function `Tick` of `util.go`. -/
def Tick (env : Capabilities) (a : Actor) (deltaTime : Duration) : List Event × Option Error :=
  match assertIntf env.Tick a with
  | some f => ([Event.Tick a deltaTime], f deltaTime)
  | none => ([], none)

/-- The function `WantTick` of `util.go`. -/
def WantTick (env : Capabilities) (a : Actor) : List Event × (Bool × Option Error) :=
  match assertIntf env.WantTick a with
  | some r => ([Event.WantTick a], r)
  | none => ([], (true, none))

/-- The function `EndPlay` of `util.go`. -/
def EndPlay (env : Capabilities) (a : Actor) (endPlayReason : Option Error) :
    List Event × Option Error :=
  match assertIntf env.EndPlay a with
  | some f => ([Event.EndPlay a endPlayReason], f endPlayReason)
  | none => ([], none)

/-! ## Options of `AddActor` -/

/-- The struct `actorSettings`. -/
structure actorSettings where
  tickInterval : Duration
deriving DecidableEq, Repr

/-- The type `Option` of `manager.go`, `func(*actorSettings) error`: the settings the
function leaves behind and the error it returns. -/
abbrev ActorOption := actorSettings → actorSettings × Option Error

/-- The option `TickInterval(interval)`. -/
def TickInterval (interval : Duration) : ActorOption := fun s =>
  if interval = 0 then (s, some Error.ErrTickIntervalCannotBeZero)
  else ({ s with tickInterval := interval }, none)

/-- The option `TickEveryFrame()`. -/
def TickEveryFrame : ActorOption := fun s =>
  ({ s with tickInterval := 0 }, none)

/-! ## The manager -/

/-- The goroutine started by `processTickGroups`. -/
inductive LoopState where
  | notStarted
  | running
  | exited
deriving DecidableEq, Repr

/-- The struct `Manager`.  The mutex is not a field: a call runs on a quiescent manager.
`cancelFunc` says whether the field is non-nil.  Three fields are not in the source:
`loop` is the state of the scheduler goroutine, `nextTicker` is the address
`time.NewTicker` returns next, and `events` is the trace of method invocations. -/
structure Manager where
  actors : GoMap Actor actorMgrInfo
  tickGroups : GoMap TickerPtr actorList
  tickGroupTickers : GoMap Duration TickerPtr
  tickGroupsUpdatedCh : Chan
  tickStoppedCh : Chan
  tickFrameCh : Chan
  stopping : Bool
  cancelFunc : Bool
  loop : LoopState
  nextTicker : Nat
  events : List Event
deriving DecidableEq, Repr

/-- Why a call panicked. -/
inductive Panic where
  | nilMapAssignment
  | sendOnClosedChannel
  | closeOfClosedChannel
  | nonPositiveTickerInterval
deriving DecidableEq, Repr

/-- How a call ends: it returns (with its error, `none` for nil and for a function
without result), it panics, or it is suspended for ever on a channel. -/
inductive Outcome where
  | returned (err : Option Error)
  | panicked (p : Panic)
  | blocked
deriving DecidableEq, Repr

/-- The function `NewManager`. -/
def NewManager : Manager :=
  { actors := .mk []
    tickGroups := .mk []
    tickGroupTickers := .mk []
    tickGroupsUpdatedCh := Chan.make1
    tickStoppedCh := Chan.make1
    tickFrameCh := Chan.make1
    stopping := false
    cancelFunc := false
    loop := .notStarted
    nextTicker := 0
    events := [] }

/-- The method `StartTicking`: the cancel function is stored and the scheduler goroutine
is started. -/
def StartTicking (m : Manager) : Manager :=
  { m with cancelFunc := true, loop := .running }

/-- The method `stopActor`. -/
def stopActor (env : Capabilities) (m : Manager) (a : Actor) (reason : Option Error) :
    Manager × Option Error :=
  match EndPlay env a reason with
  | (evs, some err) => ({ m with events := m.events ++ evs }, some err)
  | (evs, none) => ({ m with events := m.events ++ evs }, none)

/-- The receive `<-m.tickStoppedCh` of `Stop`, after `m.cancelFunc()`: a buffered element
is taken; a closed channel yields at once; otherwise the running scheduler goroutine
sees the cancellation, leaves its loop and sends the element (its deferred `Stop` then
returns at the `stopping` guard); with no goroutine left to send, the receive never
completes (`none`). -/
def recvTickStopped (m : Manager) : Option Manager :=
  if 0 < m.tickStoppedCh.len then
    some { m with tickStoppedCh := { m.tickStoppedCh with len := m.tickStoppedCh.len - 1 } }
  else if m.tickStoppedCh.closed then some m
  else if m.loop = .running then some { m with loop := .exited }
  else none

/-- The deferred function of `Stop`, closing the three channels in turn. -/
def closeChannels (m : Manager) : Manager × Outcome :=
  match m.tickGroupsUpdatedCh.close with
  | none => (m, .panicked .closeOfClosedChannel)
  | some c1 =>
    let m1 := { m with tickGroupsUpdatedCh := c1 }
    match m1.tickStoppedCh.close with
    | none => (m1, .panicked .closeOfClosedChannel)
    | some c2 =>
      let m2 := { m1 with tickStoppedCh := c2 }
      match m2.tickFrameCh.close with
      | none => (m2, .panicked .closeOfClosedChannel)
      | some c3 => ({ m2 with tickFrameCh := c3 }, .returned none)

/-- The method `Stop`.  The loop `for _, a := range actors` binds `a` to the VALUES of the
map `actors`, which are `actorMgrInfo` structs, and passes each to `stopActor`. -/
def Stop (env : Capabilities) (m : Manager) : Manager × Outcome :=
  if m.stopping then (m, .returned none)
  else
    let m1 := { m with stopping := true }
    match (if m1.cancelFunc then recvTickStopped m1 else some m1) with
    | none => (m1, .blocked)
    | some m2 =>
      let actors := m2.actors
      let m3 := { m2 with actors := .mk [], tickGroupTickers := .nil, tickGroups := .nil }
      let m4 := actors.entries.foldl
        (fun acc kv => (stopActor env acc (Actor.mgrInfo kv.2) (some Error.ErrManagerStopped)).1) m3
      closeChannels m4

/-- The method `removeActorFromLists`.  The search `for k, v := range m.tickGroupTickers`
takes the first interval whose ticker is the one of the group (Go visits the map in an
unspecified order; at most one entry matches when the map is injective). -/
def removeActorFromLists (m : Manager) (a : Actor) : Manager × Option Error :=
  match m.actors.get? a with
  | none => (m, some Error.ErrActorNotFound)
  | some ami =>
    let m1 := { m with actors := m.actors.delete a }
    let ticker := ami.tickGroup
    match m1.tickGroups.get? ticker with
    | none => (m1, none)
    | some tg =>
      let tg1 : actorList := { tg with list := tg.list.filter (fun x => decide (x ≠ a)) }
      let m2 := { m1 with tickGroups := m1.tickGroups.store ticker tg1 }
      if tg1.list.length = 0 then
        let tickerIntv : Duration :=
          match m2.tickGroupTickers.entries.find? (fun kv => decide (kv.2 = ticker)) with
          | some kv => kv.1
          | none => 0
        ({ m2 with tickGroups := m2.tickGroups.delete ticker
                   tickGroupTickers := m2.tickGroupTickers.delete tickerIntv }, none)
      else (m2, none)

/-- The method `RemoveActor`; the error of `stopActor` is dropped. -/
def RemoveActor (env : Capabilities) (m : Manager) (a : Actor) (reason : Option Error) :
    Manager × Outcome :=
  match removeActorFromLists m a with
  | (m1, some err) => (m1, .returned (some err))
  | (m1, none) => ((stopActor env m1 a reason).1, .returned none)

/-- The settings after `for _, opt := range opts { opt(&s) }`: the error an option returns
is not looked at. -/
def applyOptions (opts : List ActorOption) : actorSettings :=
  opts.foldl (fun s opt => (opt s).1) { tickInterval := DefaultTickInterval }

/-- The end of `AddActor`: the send on `tickGroupsUpdatedCh` when groups were updated. -/
def signalUpdated (m : Manager) (updatedGroups : Bool) : Manager × Outcome :=
  if updatedGroups then
    match m.tickGroupsUpdatedCh.send with
    | .sent c => ({ m with tickGroupsUpdatedCh := c }, .returned none)
    | .blocks => (m, .blocked)
    | .panics => (m, .panicked .sendOnClosedChannel)
  else (m, .returned none)

/-- The choice of the ticker in `AddActor` (`var ticker *time.Ticker` and the `if` after
it): the manager after it, the ticker, and `updatedGroups`.  `time.NewTicker` panics on a
non-positive duration; an assignment to an entry of a nil map panics. -/
def pickTicker (m : Manager) (interval : Duration) : (Manager × TickerPtr × Bool) ⊕ Panic :=
  if interval ≠ 0 then
    match m.tickGroupTickers.get? interval with
    | some tgt => .inl (m, tgt, false)
    | none =>
      if interval ≤ 0 then .inr .nonPositiveTickerInterval
      else if m.tickGroupTickers.isNil then .inr .nilMapAssignment
      else .inl ({ m with
        tickGroupTickers := m.tickGroupTickers.store interval (some m.nextTicker)
        nextTicker := m.nextTicker + 1 }, some m.nextTicker, true)
  else .inl (m, none, false)

/-- The rest of `AddActor`, from `m.actors[a] = actorMgrInfo{...}` on: the actor is
recorded with its ticker and joins the group of that ticker, which is made if there is
none; `now` is the value of `time.Now()`. -/
def joinTickGroup (now : Time) (m1 : Manager) (a : Actor) (ticker : TickerPtr)
    (updated : Bool) : Manager × Outcome :=
  if m1.actors.isNil then (m1, .panicked .nilMapAssignment)
  else
    let m2 := { m1 with actors := m1.actors.store a { tickGroup := ticker } }
    match m2.tickGroups.get? ticker with
    | some tg =>
      let tg1 : actorList := { tg with list := tg.list.insert a }
      signalUpdated { m2 with tickGroups := m2.tickGroups.store ticker tg1 } updated
    | none =>
      if m2.tickGroups.isNil then (m2, .panicked .nilMapAssignment)
      else
        let tg1 : actorList := { list := [a], lastTick := now }
        signalUpdated { m2 with tickGroups := m2.tickGroups.store ticker tg1 } true

/-- The locked part of `AddActor`, from `updatedGroups := false` on, for the settled
interval. -/
def addActorLocked (now : Time) (m : Manager) (a : Actor) (interval : Duration) :
    Manager × Outcome :=
  match pickTicker m interval with
  | .inr p => (m, .panicked p)
  | .inl (m1, ticker, updated) => joinTickGroup now m1 a ticker updated

/-- The method `AddActor`. -/
def AddActor (env : Capabilities) (now : Time) (m : Manager) (a : Actor)
    (opts : List ActorOption) : Manager × Outcome :=
  if m.stopping then (m, .returned (some Error.ErrManagerStopped))
  else if (m.actors.get? a).isSome then (m, .returned (some Error.ErrActorAlreadyAdded))
  else
    let s := applyOptions opts
    match BeginPlay env a with
    | (evs, some err) => ({ m with events := m.events ++ evs }, .returned (some err))
    | (evs, none) => addActorLocked now { m with events := m.events ++ evs } a s.tickInterval

/-- The method `TickFrame`. -/
def TickFrame (m : Manager) : Manager × Outcome :=
  if m.stopping then (m, .returned (some Error.ErrManagerStopped))
  else
    match m.tickFrameCh.send with
    | .sent c => ({ m with tickFrameCh := c }, .returned none)
    | .blocks => (m, .blocked)
    | .panics => (m, .panicked .sendOnClosedChannel)

/-- The members of the tick group keyed by a ticker; none when there is no such group. -/
def Manager.members (m : Manager) (k : TickerPtr) : List Actor :=
  match m.tickGroups.get? k with
  | some tg => tg.list
  | none => []

/-- An environment in which every object implements `EndPlayIntf`, its `EndPlay`
returning nil, and nothing else. -/
def envEndPlay : Capabilities :=
  { Capabilities.none with EndPlay := fun _ => some (fun _ => none) }

/-- An environment in which the `BeginPlay` of object 7 returns an error and no other
method is implemented. -/
def envBeginPlayFails : Capabilities :=
  { Capabilities.none with
      BeginPlay := fun id => if id = 7 then some (some (Error.other 1)) else none }

/-! ## Options as the caller writes them, and well-formed managers -/

/-- An option a caller can pass to `AddActor`: the package exports the two constructors
`TickInterval` and `TickEveryFrame`, and `actorSettings` is not exported. -/
inductive OptionSpec where
  | TickInterval (d : Duration)
  | TickEveryFrame
deriving DecidableEq, Repr

/-- The option function a constructor call builds. -/
def OptionSpec.toOption : OptionSpec → ActorOption
  | .TickInterval d => ActorPkg.TickInterval d
  | .TickEveryFrame => ActorPkg.TickEveryFrame

/-- The errors the options return when applied in turn, as `AddActor` applies them. -/
def optionErrors : List ActorOption → actorSettings → List (Option Error)
  | [], _ => []
  | opt :: rest, s => (opt s).2 :: optionErrors rest (opt s).1

/-- The resolved interval in the words of the specification: the default when no option
is given, otherwise what the last option asks for, zero standing for every-frame. -/
def resolvedInterval (specs : List OptionSpec) : Duration :=
  match specs.getLast? with
  | none => DefaultTickInterval
  | some (.TickInterval d) => d
  | some .TickEveryFrame => 0

/-- Whether a tick group for the interval exists: the every-frame group for zero,
otherwise the group keyed by the ticker recorded for the interval. -/
def Manager.hasGroupFor (m : Manager) (d : Duration) : Bool :=
  if d = 0 then (m.tickGroups.get? none).isSome
  else
    match m.tickGroupTickers.get? d with
    | some t => (m.tickGroups.get? t).isSome
    | none => false

/-- What holds of the registries of a manager on which `Stop` was not called: the three
maps are the ones `NewManager` made (not nil), the topology-changed channel is open, and
every member of a tick group is a registered actor. -/
def Manager.WellFormed (m : Manager) : Prop :=
  m.actors.isNil = false ∧ m.tickGroups.isNil = false ∧ m.tickGroupTickers.isNil = false ∧
  m.tickGroupsUpdatedCh.closed = false ∧
  ∀ kv ∈ m.tickGroups.entries, ∀ b ∈ kv.2.list, (m.actors.get? b).isSome = true

instance (m : Manager) : Decidable m.WellFormed := by
  unfold Manager.WellFormed
  infer_instance

/-! ## Spawning (`actor.go`) -/

/-- The struct `spawnActorSettings`. -/
structure spawnActorSettings where
  deferredSpawn : Bool
deriving DecidableEq, Repr

/-- The type `SpawnActorOption`, `func(*spawnActorSettings) error`: the settings the
function leaves behind and the error it returns. -/
abbrev SpawnActorOption := spawnActorSettings → spawnActorSettings × Option Error

/-- The option `DeferredSpawnActor()`. -/
def DeferredSpawnActor : SpawnActorOption := fun s =>
  ({ s with deferredSpawn := true }, none)

/-- The loop `for _, opt := range opts { if err := opt(&s); err != nil { return err } }`
of `SpawnActor` and `FinishSpawningActor`: the settings, or the first error. -/
def applySpawnOptions : List SpawnActorOption → spawnActorSettings → spawnActorSettings ⊕ Error
  | [], s => .inl s
  | opt :: rest, s =>
    match opt s with
    | (_, some err) => .inr err
    | (s1, none) => applySpawnOptions rest s1

/-- Sequencing of `if err := f(a); err != nil { return err }` with what follows it. -/
def thenHook (first : List Event × Option Error) (rest : List Event × Option Error) :
    List Event × Option Error :=
  match first with
  | (evs, some err) => (evs, some err)
  | (evs, none) => (evs ++ rest.1, rest.2)

/-- The function `FinishSpawningActor`: the invocations made and the error returned.  The
settings built from the options are not read. -/
def FinishSpawningActor (env : Capabilities) (a : Actor) (opts : List SpawnActorOption) :
    List Event × Option Error :=
  match applySpawnOptions opts { deferredSpawn := false } with
  | .inr err => ([], some err)
  | .inl _ =>
    thenHook (ExecuteConstruction env a) <|
    thenHook (OnConstruction env a) <|
    thenHook (PostActorConstruction env a) <|
    thenHook (PreInitializeComponents env a) <|
    thenHook (InitializeComponents env a) <|
    thenHook (PostInitializeComponents env a) <|
    thenHook (OnActorSpawned env a) ([], none)

/-- The function `SpawnActor`.  `reflect.New(typ)` makes a new object, here the object
`id`, whose methods are those the table gives for `id`; the conversion to `Actor`
(`interface{}`) cannot fail.  The result is the invocations made, the actor returned
(`none` for nil) and the error. -/
def SpawnActor (env : Capabilities) (id : Nat) (opts : List SpawnActorOption) :
    List Event × (Option Actor × Option Error) :=
  match applySpawnOptions opts { deferredSpawn := false } with
  | .inr err => ([], (none, some err))
  | .inl s =>
    let a := Actor.object id
    match PostSpawnInitialize env a with
    | (evs, some err) => (evs, (none, some err))
    | (evs, none) =>
      if s.deferredSpawn then (evs, (some a, none))
      else
        match FinishSpawningActor env a opts with
        | (evs2, some err) => (evs ++ evs2, (none, some err))
        | (evs2, none) => (evs ++ evs2, (some a, none))

/-- The eight construction hooks in the fixed order of the specification. -/
def spawnHookOrder (a : Actor) : List Event :=
  [Event.PostSpawnInitialize a, Event.ExecuteConstruction a, Event.OnConstruction a,
   Event.PostActorConstruction a, Event.PreInitializeComponents a,
   Event.InitializeComponents a, Event.PostInitializeComponents a, Event.OnActorSpawned a]

/-- Whether the receiver of an invocation implements the method invoked. -/
def Capabilities.implementsEvent (env : Capabilities) : Event → Bool
  | .PostSpawnInitialize a => (assertIntf env.PostSpawnInitialize a).isSome
  | .ExecuteConstruction a => (assertIntf env.ExecuteConstruction a).isSome
  | .OnConstruction a => (assertIntf env.OnConstruction a).isSome
  | .PostActorConstruction a => (assertIntf env.PostActorConstruction a).isSome
  | .PreInitializeComponents a => (assertIntf env.PreInitializeComponents a).isSome
  | .InitializeComponents a => (assertIntf env.InitializeComponents a).isSome
  | .PostInitializeComponents a => (assertIntf env.PostInitializeComponents a).isSome
  | .OnActorSpawned a => (assertIntf env.OnActorSpawned a).isSome
  | .BeginPlay a => (assertIntf env.BeginPlay a).isSome
  | .Tick a _ => (assertIntf env.Tick a).isSome
  | .WantTick a => (assertIntf env.WantTick a).isSome
  | .EndPlay a _ => (assertIntf env.EndPlay a).isSome
  | .BeginDestroy a => (assertIntf env.BeginDestroy a).isSome
  | .FinishDestroy a => (assertIntf env.FinishDestroy a).isSome

/-- All eight construction hooks of the actor succeed (a hook the actor does not implement
counts as succeeding). -/
def spawnHooksSucceed (env : Capabilities) (a : Actor) : Prop :=
  (PostSpawnInitialize env a).2 = none ∧ (ExecuteConstruction env a).2 = none ∧
  (OnConstruction env a).2 = none ∧ (PostActorConstruction env a).2 = none ∧
  (PreInitializeComponents env a).2 = none ∧ (InitializeComponents env a).2 = none ∧
  (PostInitializeComponents env a).2 = none ∧ (OnActorSpawned env a).2 = none

instance (env : Capabilities) (a : Actor) : Decidable (spawnHooksSucceed env a) := by
  unfold spawnHooksSucceed
  infer_instance

/-- An environment like the type `spawnActorTest` of `actor_test.go`: every object
implements the seven hooks that type has (it has no `PostInitializeComponents`), each
returning nil. -/
def envSpawnTest : Capabilities :=
  { Capabilities.none with
      PostSpawnInitialize := fun _ => some none
      ExecuteConstruction := fun _ => some none
      OnConstruction := fun _ => some none
      PostActorConstruction := fun _ => some none
      PreInitializeComponents := fun _ => some none
      InitializeComponents := fun _ => some none
      OnActorSpawned := fun _ => some none }

/-! ## The scheduler loop (`generateWaitList`, `processTickGroups`) -/

/-- The variable through which the source reaches a manager: the receiver `m` of the
method, or the package variable `mgr` (the manager `init` makes and starts). -/
inductive ManagerVar where
  | receiver
  | packageMgr
deriving DecidableEq, Repr

/-- A case of the `reflect.Select`: the `Done` channel of the context, one of the two
signal channels of the manager reached through the named variable, or the channel of a
ticker. -/
inductive SelectSource where
  | ctxDone
  | tickGroupsUpdatedCh (owner : ManagerVar)
  | tickFrameCh (owner : ManagerVar)
  | tickerC (ticker : Nat)
deriving DecidableEq, Repr

/-- The struct `waitList`.  A pointer to an `actorList` in `tgs` is the key under which
the registry it was read from holds that group. -/
structure waitList where
  cases : List SelectSource
  tgs : List TickerPtr
deriving DecidableEq, Repr

/-- The method `generateWaitList` with receiver `m`.  Its body takes the lock, the
topology-changed channel, the manual-frame channel and the tick groups from the package
variable `mgr`; of the receiver it uses nothing (only the context passed in is its own). -/
def generateWaitList (mgr : Manager) (_m : Manager) : waitList :=
  let wl0 : waitList :=
    { cases := [SelectSource.ctxDone, SelectSource.tickGroupsUpdatedCh ManagerVar.packageMgr]
      tgs := [] }
  let wl1 : waitList :=
    match mgr.tickGroups.get? none with
    | some _ =>
      { cases := wl0.cases ++ [SelectSource.tickFrameCh ManagerVar.packageMgr]
        tgs := wl0.tgs ++ [none] }
    | none => wl0
  mgr.tickGroups.entries.foldl
    (fun wl kv =>
      match kv.1 with
      | none => wl
      | some t => { cases := wl.cases ++ [SelectSource.tickerC t], tgs := wl.tgs ++ [some t] })
    wl1

/-- The source a tick group is waited on: the manual-frame channel of the package manager
for the every-frame group (nil ticker), the channel of its ticker otherwise. -/
def waitSource : TickerPtr → SelectSource
  | none => SelectSource.tickFrameCh ManagerVar.packageMgr
  | some t => SelectSource.tickerC t

/-- The non-nil keys of a tick-group registry, in the order the registry is visited. -/
def timedTickers (entries : List (TickerPtr × actorList)) : List Nat :=
  entries.filterMap (fun kv => kv.1)

/-- The loop `actorTickLoop` over the snapshot of a group: the invocations made, and the
error with which `panic(err)` is called, if any. -/
def actorTickLoop (env : Capabilities) (deltaTime : Duration) :
    List Actor → List Event × Option Error
  | [] => ([], none)
  | a :: rest =>
    match WantTick env a with
    | (ev1, (_, some err)) => (ev1, some err)
    | (ev1, (false, none)) =>
      (ev1 ++ (actorTickLoop env deltaTime rest).1, (actorTickLoop env deltaTime rest).2)
    | (ev1, (true, none)) =>
      match Tick env a deltaTime with
      | (ev2, some err) => (ev1 ++ ev2, some err)
      | (ev2, none) =>
        (ev1 ++ ev2 ++ (actorTickLoop env deltaTime rest).1,
          (actorTickLoop env deltaTime rest).2)

/-- The body of `mainTickLoop` for a chosen index of 2 or more, on the manager whose
registry holds the group `tg := wl.tgs[chosen-2]` under the key `k`: snapshot of the
members, `deltaTime := now.Sub(tg.lastTick)`, the loop over the snapshot, and
`tg.lastTick = now` when no capability failed.  The second component is the error of
`panic(err)`.  A group that has left the registry has no member (it is deleted only when
empty), so firing it ticks nobody. -/
def tickGroupFired (env : Capabilities) (now : Time) (m : Manager) (k : TickerPtr) :
    Manager × Option Error :=
  match m.tickGroups.get? k with
  | none => (m, none)
  | some tg =>
    match actorTickLoop env (now - tg.lastTick) tg.list with
    | (evs, some err) => ({ m with events := m.events ++ evs }, some err)
    | (evs, none) =>
      ({ m with
          events := m.events ++ evs
          tickGroups := m.tickGroups.store k { tg with lastTick := now } }, none)

/-- One iteration of the scheduler goroutine of the package manager in which a group
fires.  Without failure the loop goes on (`none`).  When `WantTick` or `Tick` fails the
goroutine panics: it leaves the loop without reaching the send on `tickStoppedCh` that
follows the loop, and its deferred `m.Stop()` runs; the result is how that call ends. -/
def mainTickLoopFire (env : Capabilities) (now : Time) (m : Manager) (k : TickerPtr) :
    Manager × Option Outcome :=
  match tickGroupFired env now m k with
  | (m1, none) => (m1, none)
  | (m1, some _) =>
    ((Stop env { m1 with loop := LoopState.exited }).1,
      some (Stop env { m1 with loop := LoopState.exited }).2)

/-- The scheduler goroutine of the package manager selects case 1: it receives the
element buffered in `tickGroupsUpdatedCh` (and builds its wait list again); `none` when
nothing is buffered. -/
def recvTickGroupsUpdated (m : Manager) : Option Manager :=
  if 0 < m.tickGroupsUpdatedCh.len then
    some { m with tickGroupsUpdatedCh :=
      { m.tickGroupsUpdatedCh with len := m.tickGroupsUpdatedCh.len - 1 } }
  else none

/-- An environment in which the `Tick` of every object returns an error, and nothing else
is implemented. -/
def envTickFails : Capabilities :=
  { Capabilities.none with Tick := fun _ => some (fun _ => some (Error.other 2)) }

/-- An environment in which every object implements `Tick`; object 2 also implements
`WantTick`, answering false, and its `Tick` would return an error; the `Tick` of the
other objects returns nil. -/
def envTicks : Capabilities :=
  { Capabilities.none with
      Tick := fun id => if id = 2 then some (fun _ => some (Error.other 2))
        else some (fun _ => none)
      WantTick := fun id => if id = 2 then some (false, none) else none }

/-- Whether the actor's own `WantTick` lets it be ticked: what its method answers, and
true when it has no such method. -/
def Capabilities.wantsTick (env : Capabilities) (a : Actor) : Bool :=
  match assertIntf env.WantTick a with
  | Option.some r => r.1
  | Option.none => true

/-- The invocations a firing owes one member, in the words of the specification: the
query `WantTick` when the member implements it, then `Tick` with the elapsed time when
the member wants the tick (or has no `WantTick`) and implements `Tick`. -/
def owedTickEvents (env : Capabilities) (deltaTime : Duration) (a : Actor) : List Event :=
  (if (assertIntf env.WantTick a).isSome then [Event.WantTick a] else []) ++
  (if env.wantsTick a && (assertIntf env.Tick a).isSome then [Event.Tick a deltaTime] else [])

/-! ## The registry invariant and the reachable states -/

/-- The invariant of the registries. -/
structure Manager.Inv (m : Manager) : Prop where
  made : m.stopping = false →
    m.actors.isNil = false ∧ m.tickGroups.isNil = false ∧ m.tickGroupTickers.isNil = false
  registered_member : ∀ a ami, m.actors.get? a = some ami →
    ∃ tg, m.tickGroups.get? ami.tickGroup = some tg ∧ a ∈ tg.list
  member_registered : ∀ k tg, m.tickGroups.get? k = some tg →
    ∀ b ∈ tg.list, m.actors.get? b = some { tickGroup := k }
  group_nonempty : ∀ k tg, m.tickGroups.get? k = some tg → tg.list ≠ []
  ticker_inj : ∀ d1 d2 t, m.tickGroupTickers.get? d1 = some t →
    m.tickGroupTickers.get? d2 = some t → d1 = d2
  ticker_group : ∀ d t, m.tickGroupTickers.get? d = some t →
    ∃ n, t = some n ∧ n < m.nextTicker ∧ (m.tickGroups.get? t).isSome = true
  group_ticker : ∀ n tg, m.tickGroups.get? (some n) = some tg →
    ∃ d, m.tickGroupTickers.get? d = some (some n)
  ticker_keys : (m.tickGroupTickers.entries.map Prod.fst).Nodup
  zero_free : m.tickGroupTickers.get? 0 = none

/-- The states a manager goes through: made by `NewManager`, then any calls of
`StartTicking`, `AddActor` (any actor, time and options), `RemoveActor`, `TickFrame` and
`Stop`, however each call ends. -/
inductive Reachable (env : Capabilities) : Manager → Prop where
  | new : Reachable env NewManager
  | start {m : Manager} : Reachable env m → Reachable env (StartTicking m)
  | add {m : Manager} (now : Time) (a : Actor) (opts : List ActorOption) :
      Reachable env m → Reachable env (AddActor env now m a opts).1
  | remove {m : Manager} (a : Actor) (reason : Option Error) :
      Reachable env m → Reachable env (RemoveActor env m a reason).1
  | tickFrame {m : Manager} : Reachable env m → Reachable env (TickFrame m).1
  | stop {m : Manager} : Reachable env m → Reachable env (Stop env m).1

/-! ## Association lists and maps: lookup after an update -/

theorem assocGet_assocDel_self {K V : Type} [DecidableEq K] (l : List (K × V)) (k : K) :
    assocGet (assocDel l k) k = none := by
  induction l with
  | nil => rfl
  | cons kv rest ih =>
    obtain ⟨k1, v⟩ := kv
    by_cases h : k1 = k
    · simpa [assocDel, List.filter_cons, h] using ih
    · simpa [assocDel, List.filter_cons, h, assocGet] using ih

theorem assocGet_assocDel_ne {K V : Type} [DecidableEq K] (l : List (K × V)) {k k2 : K}
    (hne : k ≠ k2) : assocGet (assocDel l k) k2 = assocGet l k2 := by
  induction l with
  | nil => rfl
  | cons kv rest ih =>
    obtain ⟨k1, v⟩ := kv
    by_cases h : k1 = k
    · subst h
      simpa [assocDel, List.filter_cons, assocGet, hne] using ih
    · by_cases h2 : k1 = k2
      · subst h2
        simp [assocDel, List.filter_cons, h, assocGet]
      · simpa [assocDel, List.filter_cons, h, assocGet, h2] using ih

theorem assocGet_assocSet_self {K V : Type} [DecidableEq K] (l : List (K × V)) (k : K) (v : V) :
    assocGet (assocSet l k v) k = some v := by
  simp [assocSet, assocGet]

theorem assocGet_assocSet_ne {K V : Type} [DecidableEq K] (l : List (K × V)) {k k2 : K} (v : V)
    (hne : k ≠ k2) : assocGet (assocSet l k v) k2 = assocGet l k2 := by
  simp [assocSet, assocGet, hne, assocGet_assocDel_ne l hne]

theorem GoMap.get?_delete_self {K V : Type} [DecidableEq K] (m : GoMap K V) (k : K) :
    (m.delete k).get? k = none := by
  cases m with
  | nil => rfl
  | mk l => exact assocGet_assocDel_self l k

theorem GoMap.get?_delete_ne {K V : Type} [DecidableEq K] (m : GoMap K V) {k k2 : K}
    (hne : k ≠ k2) : (m.delete k).get? k2 = m.get? k2 := by
  cases m with
  | nil => rfl
  | mk l => exact assocGet_assocDel_ne l hne

theorem GoMap.get?_store_self {K V : Type} [DecidableEq K] (m : GoMap K V) (k : K) (v : V)
    (hm : m.isNil = false) : (m.store k v).get? k = some v := by
  cases m with
  | nil => simp [GoMap.isNil] at hm
  | mk l => exact assocGet_assocSet_self l k v

theorem GoMap.get?_store_ne {K V : Type} [DecidableEq K] (m : GoMap K V) {k k2 : K} (v : V)
    (hne : k ≠ k2) : (m.store k v).get? k2 = m.get? k2 := by
  cases m with
  | nil => rfl
  | mk l => exact assocGet_assocSet_ne l v hne

theorem GoMap.isNil_of_get? {K V : Type} [DecidableEq K] {m : GoMap K V} {k : K} {v : V}
    (h : m.get? k = some v) : m.isNil = false := by
  cases m with
  | nil => simp [GoMap.get?, GoMap.entries, assocGet] at h
  | mk l => rfl

/-! ## The dispatchers on a value of the struct `actorMgrInfo` -/

theorem EndPlay_mgrInfo (env : Capabilities) (info : actorMgrInfo) (reason : Option Error) :
    EndPlay env (Actor.mgrInfo info) reason = ([], none) := rfl

theorem stopActor_mgrInfo (env : Capabilities) (m : Manager) (info : actorMgrInfo)
    (reason : Option Error) :
    stopActor env m (Actor.mgrInfo info) reason = (m, none) := by
  simp [stopActor, EndPlay_mgrInfo]

theorem foldl_stopActor_mgrInfo (env : Capabilities) (l : List (Actor × actorMgrInfo))
    (m : Manager) :
    l.foldl (fun acc kv =>
      (stopActor env acc (Actor.mgrInfo kv.2) (some Error.ErrManagerStopped)).1) m = m := by
  induction l generalizing m with
  | nil => rfl
  | cons kv rest ih => simp [List.foldl_cons, stopActor_mgrInfo, ih]

/-! ## `Stop` -/

theorem closeChannels_fields (m : Manager) :
    (closeChannels m).1.actors = m.actors ∧ (closeChannels m).1.tickGroups = m.tickGroups ∧
    (closeChannels m).1.tickGroupTickers = m.tickGroupTickers ∧
    (closeChannels m).1.stopping = m.stopping ∧ (closeChannels m).1.events = m.events := by
  unfold closeChannels
  cases h1 : m.tickGroupsUpdatedCh.close with
  | none => simp
  | some c1 =>
    dsimp only
    cases h2 : m.tickStoppedCh.close with
    | none => simp
    | some c2 =>
      dsimp only
      cases h3 : m.tickFrameCh.close <;> simp

/-- What a call of `Stop` that finds the manager not stopping and returns leaves behind. -/
theorem Stop_returned (env : Capabilities) (m : Manager) (h0 : m.stopping = false)
    (hret : (Stop env m).2 = Outcome.returned none) :
    (Stop env m).1.stopping = true ∧ (Stop env m).1.actors = GoMap.mk [] ∧
    (Stop env m).1.tickGroups = GoMap.nil ∧ (Stop env m).1.tickGroupTickers = GoMap.nil ∧
    (Stop env m).1.events = m.events := by
  unfold Stop at hret ⊢
  simp only [h0, Bool.false_eq_true, if_false] at hret ⊢
  split at hret
  · simp at hret
  · rename_i m2 hm2
    simp only [hm2, foldl_stopActor_mgrInfo]
    have hc := closeChannels_fields
      { m2 with actors := GoMap.mk [], tickGroupTickers := GoMap.nil, tickGroups := GoMap.nil }
    have hm2s : m2.stopping = true ∧ m2.events = m.events := by
      split at hm2
      · unfold recvTickStopped at hm2
        split at hm2
        · cases hm2; simp
        · split at hm2
          · cases hm2; simp
          · split at hm2
            · cases hm2; simp
            · simp at hm2
      · cases hm2; simp
    obtain ⟨h1, h2, h3, h4, h5⟩ := hc
    refine ⟨?_, ?_, ?_, ?_, ?_⟩
    · rw [h4]; exact hm2s.1
    · rw [h1]
    · rw [h2]
    · rw [h3]
    · rw [h5]; exact hm2s.2

/-! ## Calls that are rejected -/

theorem removeActorFromLists_absent (m : Manager) (a : Actor) (h : m.actors.get? a = none) :
    removeActorFromLists m a = (m, some Error.ErrActorNotFound) := by
  simp [removeActorFromLists, h]

theorem RemoveActor_absent (env : Capabilities) (m : Manager) (a : Actor)
    (reason : Option Error) (h : m.actors.get? a = none) :
    RemoveActor env m a reason = (m, Outcome.returned (some Error.ErrActorNotFound)) := by
  simp [RemoveActor, removeActorFromLists_absent m a h]

theorem AddActor_stopping (env : Capabilities) (now : Time) (m : Manager) (a : Actor)
    (opts : List ActorOption) (h : m.stopping = true) :
    AddActor env now m a opts = (m, Outcome.returned (some Error.ErrManagerStopped)) := by
  simp [AddActor, h]

theorem TickFrame_stopping (m : Manager) (h : m.stopping = true) :
    TickFrame m = (m, Outcome.returned (some Error.ErrManagerStopped)) := by
  simp [TickFrame, h]

theorem Stop_stopping (env : Capabilities) (m : Manager) (h : m.stopping = true) :
    Stop env m = (m, Outcome.returned none) := by
  simp [Stop, h]

/-- C1, the code at a failing input: actor 1 implements `EndPlay` and is registered by a
successful `AddActor`; `Stop` returns and empties the registry, and the trace of method
invocations is still empty: `EndPlay` was invoked on no actor, because `Stop` hands the
map values (`actorMgrInfo` structs) to `stopActor` instead of the actors. -/
theorem Stop_skips_EndPlay_of_registered_actor :
    (AddActor envEndPlay 0 NewManager (Actor.object 1) []).2 = Outcome.returned none ∧
    (AddActor envEndPlay 0 NewManager (Actor.object 1) []).1.actors.get? (Actor.object 1)
      = some { tickGroup := some 0 } ∧
    (EndPlay envEndPlay (Actor.object 1) (some Error.ErrManagerStopped)).1
      = [Event.EndPlay (Actor.object 1) (some Error.ErrManagerStopped)] ∧
    (Stop envEndPlay (AddActor envEndPlay 0 NewManager (Actor.object 1) []).1).2
      = Outcome.returned none ∧
    (Stop envEndPlay (AddActor envEndPlay 0 NewManager (Actor.object 1) []).1).1.actors
      = GoMap.mk [] ∧
    (Stop envEndPlay (AddActor envEndPlay 0 NewManager (Actor.object 1) []).1).1.events
      = [] := by
  decide

/-- C2, the code at a failing input: the option `TickInterval(0)` itself returns
`ErrTickIntervalCannotBeZero`, but `AddActor` does not look at the error of an option: on
a fresh manager `AddActor(a, TickInterval(0))` returns nil and registers `a` in a new
group of the default interval (200ms), posting the topology signal. -/
theorem AddActor_ignores_zero_TickInterval :
    (TickInterval 0 { tickInterval := DefaultTickInterval }).2
      = some Error.ErrTickIntervalCannotBeZero ∧
    AddActor Capabilities.none 5 NewManager (Actor.object 1) [TickInterval 0] =
      ({ NewManager with
          actors := GoMap.mk [(Actor.object 1, { tickGroup := some 0 })]
          tickGroups := GoMap.mk [(some 0, { list := [Actor.object 1], lastTick := 5 })]
          tickGroupTickers := GoMap.mk [(200000000, some 0)]
          tickGroupsUpdatedCh := { len := 1, cap := 1, closed := false }
          nextTicker := 1 },
       Outcome.returned none) := by
  decide

/-- C3, the code at a failing input: actor 1 is registered, actor 2 never is; after `Stop`
has returned, `RemoveActor` returns `ErrActorNotFound` (not `ErrManagerStopped`) for both,
and changes nothing. -/
theorem RemoveActor_after_Stop_returns_ErrActorNotFound :
    (Stop envEndPlay (AddActor envEndPlay 0 NewManager (Actor.object 1) []).1).2
      = Outcome.returned none ∧
    (Stop envEndPlay (AddActor envEndPlay 0 NewManager (Actor.object 1) []).1).1.stopping
      = true ∧
    RemoveActor envEndPlay
        (Stop envEndPlay (AddActor envEndPlay 0 NewManager (Actor.object 1) []).1).1
        (Actor.object 1) (some (Error.other 9)) =
      ((Stop envEndPlay (AddActor envEndPlay 0 NewManager (Actor.object 1) []).1).1,
        Outcome.returned (some Error.ErrActorNotFound)) ∧
    RemoveActor envEndPlay
        (Stop envEndPlay (AddActor envEndPlay 0 NewManager (Actor.object 1) []).1).1
        (Actor.object 2) (some (Error.other 9)) =
      ((Stop envEndPlay (AddActor envEndPlay 0 NewManager (Actor.object 1) []).1).1,
        Outcome.returned (some Error.ErrActorNotFound)) := by
  decide

/-- The shutdown `Stop` performs when it is the call that finds the manager not yet
stopping and it returns: the actor registry and both tick-group registries hold no
entries; in the state it leaves, every `AddActor` and `TickFrame` returns
`ErrManagerStopped` with the whole state unchanged, and `RemoveActor` and a further
`Stop` leave that state unchanged too. -/
theorem after_Stop_registries_empty_and_calls_rejected (env : Capabilities) (m : Manager)
    (h0 : m.stopping = false) (hret : (Stop env m).2 = Outcome.returned none) :
    (Stop env m).1.actors.len = 0 ∧ (Stop env m).1.tickGroups.len = 0 ∧
    (Stop env m).1.tickGroupTickers.len = 0 ∧
    (∀ (env2 : Capabilities) (now : Time) (a : Actor) (opts : List ActorOption),
      AddActor env2 now (Stop env m).1 a opts
        = ((Stop env m).1, Outcome.returned (some Error.ErrManagerStopped))) ∧
    TickFrame (Stop env m).1
      = ((Stop env m).1, Outcome.returned (some Error.ErrManagerStopped)) ∧
    (∀ (env2 : Capabilities) (a : Actor) (reason : Option Error),
      (RemoveActor env2 (Stop env m).1 a reason).1 = (Stop env m).1) ∧
    (∀ env2 : Capabilities, (Stop env2 (Stop env m).1).1 = (Stop env m).1) := by
  obtain ⟨hs, ha, hg, ht, _⟩ := Stop_returned env m h0 hret
  refine ⟨?_, ?_, ?_, ?_, ?_, ?_, ?_⟩
  · rw [ha]; rfl
  · rw [hg]; rfl
  · rw [ht]; rfl
  · intro env2 now a opts
    exact AddActor_stopping env2 now _ a opts hs
  · exact TickFrame_stopping _ hs
  · intro env2 a reason
    have hnone : (Stop env m).1.actors.get? a = none := by rw [ha]; rfl
    rw [RemoveActor_absent env2 _ a reason hnone]
  · intro env2
    rw [Stop_stopping env2 _ hs]

/-- The shutdown of a started manager holding one actor. -/
theorem after_Stop_registries_empty_and_calls_rejected_witness :
    (Stop envEndPlay
      (StartTicking (AddActor envEndPlay 0 NewManager (Actor.object 1) []).1)).1.actors.len = 0 ∧
    TickFrame (Stop envEndPlay
      (StartTicking (AddActor envEndPlay 0 NewManager (Actor.object 1) []).1)).1
      = ((Stop envEndPlay
          (StartTicking (AddActor envEndPlay 0 NewManager (Actor.object 1) []).1)).1,
        Outcome.returned (some Error.ErrManagerStopped)) :=
  have h := after_Stop_registries_empty_and_calls_rejected envEndPlay
    (StartTicking (AddActor envEndPlay 0 NewManager (Actor.object 1) []).1)
    (by decide) (by decide)
  ⟨h.1, h.2.2.2.2.1⟩

/-- C5: on a manager that is not stopping, `AddActor` of an actor already in the registry,
with any options, returns `ErrActorAlreadyAdded` and leaves the whole state unchanged:
the trace gains no `BeginPlay`, and the actor's group assignment, every group's member
set and the interval-to-timer map are what they were. -/
theorem AddActor_already_added (env : Capabilities) (now : Time) (m : Manager) (a : Actor)
    (opts : List ActorOption) (hstop : m.stopping = false)
    (hreg : (m.actors.get? a).isSome = true) :
    AddActor env now m a opts = (m, Outcome.returned (some Error.ErrActorAlreadyAdded)) := by
  simp [AddActor, hstop, hreg]

/-- Witness of C5: the same actor added twice, the second time with another interval. -/
theorem AddActor_already_added_witness :
    AddActor envEndPlay 7 (AddActor envEndPlay 0 NewManager (Actor.object 1) []).1
        (Actor.object 1) [TickEveryFrame]
      = ((AddActor envEndPlay 0 NewManager (Actor.object 1) []).1,
          Outcome.returned (some Error.ErrActorAlreadyAdded)) :=
  AddActor_already_added envEndPlay 7 (AddActor envEndPlay 0 NewManager (Actor.object 1) []).1
    (Actor.object 1) [TickEveryFrame] (by decide) (by decide)

/-- C6: for every manager and every actor that is not in the registry, `RemoveActor`
returns `ErrActorNotFound` and leaves the whole state unchanged: the trace gains no
`EndPlay`, and the actor registry and both tick-group registries are what they were. -/
theorem RemoveActor_not_found (env : Capabilities) (m : Manager) (a : Actor)
    (reason : Option Error) (habs : m.actors.get? a = none) :
    RemoveActor env m a reason = (m, Outcome.returned (some Error.ErrActorNotFound)) := by
  simp [RemoveActor, removeActorFromLists, habs]

/-- Witness of C6: actor 2 removed from a manager that holds actor 1 only. -/
theorem RemoveActor_not_found_witness :
    RemoveActor envEndPlay (AddActor envEndPlay 0 NewManager (Actor.object 1) []).1
        (Actor.object 2) (some (Error.other 3))
      = ((AddActor envEndPlay 0 NewManager (Actor.object 1) []).1,
          Outcome.returned (some Error.ErrActorNotFound)) :=
  RemoveActor_not_found envEndPlay (AddActor envEndPlay 0 NewManager (Actor.object 1) []).1
    (Actor.object 2) (some (Error.other 3)) (by decide)

/-! ## `AddActor` past its guards -/

theorem BeginPlay_error_events (env : Capabilities) (a : Actor) (e : Error)
    (h : (BeginPlay env a).2 = some e) : BeginPlay env a = ([Event.BeginPlay a], some e) := by
  unfold BeginPlay at h ⊢
  cases hb : assertIntf env.BeginPlay a with
  | none => simp [hb] at h
  | some r => simp [hb] at h ⊢; exact h

theorem AddActor_of_BeginPlay_ok (env : Capabilities) (now : Time) (m : Manager) (a : Actor)
    (opts : List ActorOption) (hstop : m.stopping = false) (hnew : m.actors.get? a = none)
    (hbegin : (BeginPlay env a).2 = none) :
    AddActor env now m a opts =
      addActorLocked now { m with events := m.events ++ (BeginPlay env a).1 } a
        (applyOptions opts).tickInterval := by
  unfold AddActor
  simp only [hstop, hnew, Bool.false_eq_true, if_false, Option.isSome_none]
  cases hb : BeginPlay env a with
  | mk evs err =>
    rw [hb] at hbegin
    simp only at hbegin
    subst hbegin
    rfl

theorem AddActor_of_BeginPlay_error (env : Capabilities) (now : Time) (m : Manager) (a : Actor)
    (opts : List ActorOption) (e : Error) (hstop : m.stopping = false)
    (hnew : m.actors.get? a = none) (hbegin : (BeginPlay env a).2 = some e) :
    AddActor env now m a opts =
      ({ m with events := m.events ++ [Event.BeginPlay a] }, Outcome.returned (some e)) := by
  unfold AddActor
  simp only [hstop, hnew, Bool.false_eq_true, if_false, Option.isSome_none]
  rw [BeginPlay_error_events env a e hbegin]

/-- C10: on a manager that is not stopping, for an actor not in the registry whose
`BeginPlay` returns the error `e`, `AddActor` with any options returns exactly `e`; the
state it leaves differs from the one before only by the invocation `BeginPlay a` at the
end of the trace: the registries are unchanged (the actor is not registered, no group
and no timer is created), the channels are unchanged (no topology-changed signal), and no
`EndPlay` is invoked. -/
theorem AddActor_BeginPlay_fails (env : Capabilities) (now : Time) (m : Manager) (a : Actor)
    (opts : List ActorOption) (e : Error) (hstop : m.stopping = false)
    (hnew : m.actors.get? a = none) (hbegin : (BeginPlay env a).2 = some e) :
    AddActor env now m a opts =
      ({ m with events := m.events ++ [Event.BeginPlay a] }, Outcome.returned (some e)) ∧
    (AddActor env now m a opts).1.actors.get? a = none ∧
    (AddActor env now m a opts).1.tickGroups = m.tickGroups ∧
    (AddActor env now m a opts).1.tickGroupTickers = m.tickGroupTickers ∧
    (AddActor env now m a opts).1.nextTicker = m.nextTicker ∧
    (AddActor env now m a opts).1.tickGroupsUpdatedCh = m.tickGroupsUpdatedCh ∧
    (∀ r, Event.EndPlay a r ∉ [Event.BeginPlay a]) := by
  rw [AddActor_of_BeginPlay_error env now m a opts e hstop hnew hbegin]
  refine ⟨rfl, hnew, rfl, rfl, rfl, rfl, ?_⟩
  intro r
  simp

/-- Witness of C10: object 7, whose `BeginPlay` fails, added to a fresh manager. -/
theorem AddActor_BeginPlay_fails_witness :
    AddActor envBeginPlayFails 3 NewManager (Actor.object 7) [TickInterval 50] =
      ({ NewManager with events := [Event.BeginPlay (Actor.object 7)] },
        Outcome.returned (some (Error.other 1))) :=
  (AddActor_BeginPlay_fails envBeginPlayFails 3 NewManager (Actor.object 7) [TickInterval 50]
    (Error.other 1) (by decide) (by decide) (by decide)).1

theorem assocGet_mem {K V : Type} [DecidableEq K] (l : List (K × V)) (k : K) (v : V)
    (h : assocGet l k = some v) : (k, v) ∈ l := by
  induction l with
  | nil => simp [assocGet] at h
  | cons kv rest ih =>
    obtain ⟨k1, v1⟩ := kv
    by_cases hk : k1 = k
    · subst hk
      simp [assocGet] at h
      subst h
      simp
    · simp [assocGet, hk] at h
      exact List.mem_cons_of_mem _ (ih h)

theorem optionErrors_append (l1 l2 : List ActorOption) (s : actorSettings) :
    optionErrors (l1 ++ l2) s =
      optionErrors l1 s ++ optionErrors l2 (l1.foldl (fun s opt => (opt s).1) s) := by
  induction l1 generalizing s with
  | nil => rfl
  | cons opt rest ih => simp [optionErrors, ih]

/-- When every option succeeds, the interval `AddActor` settles on is the resolved
interval of the specification. -/
theorem applyOptions_resolved (specs : List OptionSpec)
    (hopts : ∀ e ∈ optionErrors (specs.map OptionSpec.toOption)
      { tickInterval := DefaultTickInterval }, e = none) :
    (applyOptions (specs.map OptionSpec.toOption)).tickInterval = resolvedInterval specs := by
  rcases List.eq_nil_or_concat specs with h | ⟨init, x, h⟩
  · subst h; rfl
  · subst h
    have hlast := hopts ((x.toOption ((init.map OptionSpec.toOption).foldl
        (fun s opt => (opt s).1) { tickInterval := DefaultTickInterval })).2)
      (by simp [optionErrors_append, optionErrors])
    unfold applyOptions resolvedInterval
    simp only [List.concat_eq_append, List.map_append, List.map_cons, List.map_nil,
      List.foldl_append, List.foldl_cons, List.foldl_nil, List.getLast?_append,
      List.getLast?_singleton]
    cases x with
    | TickInterval d =>
      by_cases hd : d = 0
      · subst hd
        simp [OptionSpec.toOption, ActorPkg.TickInterval] at hlast
      · simp [OptionSpec.toOption, ActorPkg.TickInterval, hd, Option.or]
    | TickEveryFrame => simp [OptionSpec.toOption, ActorPkg.TickEveryFrame, Option.or]

theorem AddActor_returned_BeginPlay (env : Capabilities) (now : Time) (m : Manager) (a : Actor)
    (opts : List ActorOption) (hstop : m.stopping = false) (hnew : m.actors.get? a = none)
    (hret : (AddActor env now m a opts).2 = Outcome.returned none) :
    (BeginPlay env a).2 = none := by
  cases hb : (BeginPlay env a).2 with
  | none => rfl
  | some e =>
    rw [AddActor_of_BeginPlay_error env now m a opts e hstop hnew hb] at hret
    simp at hret

theorem applyOptions_TickInterval (d : Duration) (hd : d ≠ 0) :
    (applyOptions [TickInterval d]).tickInterval = d := by
  simp [applyOptions, TickInterval, hd]

theorem stopActor_fst (env : Capabilities) (m : Manager) (a : Actor) (reason : Option Error) :
    (stopActor env m a reason).1 = { m with events := m.events ++ (EndPlay env a reason).1 } := by
  unfold stopActor
  rcases h : EndPlay env a reason with ⟨evs, _ | err⟩ <;> simp

theorem RemoveActor_of_lists (env : Capabilities) (m m1 : Manager) (a : Actor)
    (reason : Option Error) (h : removeActorFromLists m a = (m1, none)) :
    RemoveActor env m a reason =
      ({ m1 with events := m1.events ++ (EndPlay env a reason).1 }, Outcome.returned none) := by
  simp [RemoveActor, h, stopActor_fst]

/-- The manager after `A` was added to a fresh manager with `TickInterval(d)`. -/
theorem AddActor_first (env : Capabilities) (d : Duration) (A : Actor) (n1 : Time)
    (hd : 0 < d)
    (hA : (AddActor env n1 NewManager A [TickInterval d]).2 = Outcome.returned none) :
    AddActor env n1 NewManager A [TickInterval d] =
      ({ NewManager with
          actors := GoMap.mk [(A, { tickGroup := some 0 })]
          tickGroups := GoMap.mk [(some 0, { list := [A], lastTick := n1 })]
          tickGroupTickers := GoMap.mk [(d, some 0)]
          tickGroupsUpdatedCh := { len := 1, cap := 1, closed := false }
          nextTicker := 1
          events := (BeginPlay env A).1 }, Outcome.returned none) := by
  have hd0 : d ≠ 0 := ne_of_gt hd
  have hdn : ¬ d ≤ 0 := not_le.mpr hd
  have hbA := AddActor_returned_BeginPlay env n1 NewManager A _ rfl rfl hA
  rw [AddActor_of_BeginPlay_ok env n1 NewManager A _ rfl rfl hbA, applyOptions_TickInterval d hd0]
  simp [addActorLocked, pickTicker, joinTickGroup, NewManager, GoMap.get?, GoMap.entries, assocGet, hd0, hdn, GoMap.isNil,
    GoMap.store, assocSet, assocDel, signalUpdated, Chan.send, Chan.make1]

/-- The manager after `B` was added next, with the same interval. -/
theorem AddActor_second (env : Capabilities) (d : Duration) (A B : Actor) (n1 n2 : Time)
    (hd : 0 < d) (hAB : A ≠ B)
    (hA : (AddActor env n1 NewManager A [TickInterval d]).2 = Outcome.returned none)
    (hB : (AddActor env n2 (AddActor env n1 NewManager A [TickInterval d]).1 B
            [TickInterval d]).2 = Outcome.returned none) :
    AddActor env n2 (AddActor env n1 NewManager A [TickInterval d]).1 B [TickInterval d] =
      ({ NewManager with
          actors := GoMap.mk [(B, { tickGroup := some 0 }), (A, { tickGroup := some 0 })]
          tickGroups := GoMap.mk [(some 0, { list := [B, A], lastTick := n1 })]
          tickGroupTickers := GoMap.mk [(d, some 0)]
          tickGroupsUpdatedCh := { len := 1, cap := 1, closed := false }
          nextTicker := 1
          events := (BeginPlay env A).1 ++ (BeginPlay env B).1 }, Outcome.returned none) := by
  have hd0 : d ≠ 0 := ne_of_gt hd
  have hBA : ¬ B = A := fun h => hAB h.symm
  rw [AddActor_first env d A n1 hd hA] at hB ⊢
  have hnew : (GoMap.mk [(A, ({ tickGroup := some 0 } : actorMgrInfo))]).get? B = none := by
    simp [GoMap.get?, GoMap.entries, assocGet, hAB]
  have hbB := AddActor_returned_BeginPlay env n2 _ B _ rfl hnew hB
  rw [AddActor_of_BeginPlay_ok env n2 _ B _ rfl hnew hbB, applyOptions_TickInterval d hd0]
  simp [addActorLocked, pickTicker, joinTickGroup, NewManager, GoMap.get?, GoMap.entries, assocGet, hd0, GoMap.isNil,
    GoMap.store, assocSet, assocDel, signalUpdated, hAB, hBA, List.insert]

/-- C8: for a positive interval `d` and distinct actors `A` and `B`, both added (each
`AddActor` returned nil) to a fresh manager with `TickInterval(d)`: after both adds the
interval-to-timer map has the one entry `d ↦ ticker 0` and there is one tick group, keyed
by that ticker, whose members are `B` and `A`; `RemoveActor(A)` returns nil and leaves the
same timer entry and the same group, now with the member `B` alone; `RemoveActor(B)` then
returns nil and leaves no tick group and no interval-to-timer entry. -/
theorem shared_interval_group (env : Capabilities) (d : Duration) (A B : Actor)
    (n1 n2 : Time) (rA rB : Option Error) (hd : 0 < d) (hAB : A ≠ B)
    (hA : (AddActor env n1 NewManager A [TickInterval d]).2 = Outcome.returned none)
    (hB : (AddActor env n2 (AddActor env n1 NewManager A [TickInterval d]).1 B
            [TickInterval d]).2 = Outcome.returned none) :
    (AddActor env n2 (AddActor env n1 NewManager A [TickInterval d]).1 B
        [TickInterval d]).1.tickGroupTickers = GoMap.mk [(d, some 0)] ∧
    (AddActor env n2 (AddActor env n1 NewManager A [TickInterval d]).1 B
        [TickInterval d]).1.tickGroups
      = GoMap.mk [(some 0, { list := [B, A], lastTick := n1 })] ∧
    (RemoveActor env (AddActor env n2 (AddActor env n1 NewManager A [TickInterval d]).1 B
        [TickInterval d]).1 A rA).2 = Outcome.returned none ∧
    (RemoveActor env (AddActor env n2 (AddActor env n1 NewManager A [TickInterval d]).1 B
        [TickInterval d]).1 A rA).1.tickGroupTickers = GoMap.mk [(d, some 0)] ∧
    (RemoveActor env (AddActor env n2 (AddActor env n1 NewManager A [TickInterval d]).1 B
        [TickInterval d]).1 A rA).1.tickGroups
      = GoMap.mk [(some 0, { list := [B], lastTick := n1 })] ∧
    (RemoveActor env (RemoveActor env (AddActor env n2
        (AddActor env n1 NewManager A [TickInterval d]).1 B [TickInterval d]).1 A rA).1 B rB).2
      = Outcome.returned none ∧
    (RemoveActor env (RemoveActor env (AddActor env n2
        (AddActor env n1 NewManager A [TickInterval d]).1 B [TickInterval d]).1 A rA).1 B
        rB).1.tickGroupTickers = GoMap.mk [] ∧
    (RemoveActor env (RemoveActor env (AddActor env n2
        (AddActor env n1 NewManager A [TickInterval d]).1 B [TickInterval d]).1 A rA).1 B
        rB).1.tickGroups = GoMap.mk [] := by
  have hBA : ¬ B = A := fun h => hAB h.symm
  rw [AddActor_second env d A B n1 n2 hd hAB hA hB]
  have r1 : RemoveActor env
      { NewManager with
          actors := GoMap.mk [(B, { tickGroup := some 0 }), (A, { tickGroup := some 0 })]
          tickGroups := GoMap.mk [(some 0, { list := [B, A], lastTick := n1 })]
          tickGroupTickers := GoMap.mk [(d, some 0)]
          tickGroupsUpdatedCh := { len := 1, cap := 1, closed := false }
          nextTicker := 1
          events := (BeginPlay env A).1 ++ (BeginPlay env B).1 } A rA =
      ({ NewManager with
          actors := GoMap.mk [(B, { tickGroup := some 0 })]
          tickGroups := GoMap.mk [(some 0, { list := [B], lastTick := n1 })]
          tickGroupTickers := GoMap.mk [(d, some 0)]
          tickGroupsUpdatedCh := { len := 1, cap := 1, closed := false }
          nextTicker := 1
          events := (BeginPlay env A).1 ++ (BeginPlay env B).1 ++ (EndPlay env A rA).1 },
        Outcome.returned none) := by
    rw [RemoveActor_of_lists env _ { NewManager with
          actors := GoMap.mk [(B, { tickGroup := some 0 })]
          tickGroups := GoMap.mk [(some 0, { list := [B], lastTick := n1 })]
          tickGroupTickers := GoMap.mk [(d, some 0)]
          tickGroupsUpdatedCh := { len := 1, cap := 1, closed := false }
          nextTicker := 1
          events := (BeginPlay env A).1 ++ (BeginPlay env B).1 }]
    simp [removeActorFromLists, GoMap.get?, GoMap.entries, assocGet, hBA, hAB,
      GoMap.delete, assocDel, GoMap.store, assocSet, NewManager]
  have r2 : RemoveActor env
      { NewManager with
          actors := GoMap.mk [(B, { tickGroup := some 0 })]
          tickGroups := GoMap.mk [(some 0, { list := [B], lastTick := n1 })]
          tickGroupTickers := GoMap.mk [(d, some 0)]
          tickGroupsUpdatedCh := { len := 1, cap := 1, closed := false }
          nextTicker := 1
          events := (BeginPlay env A).1 ++ (BeginPlay env B).1 ++ (EndPlay env A rA).1 } B rB =
      ({ NewManager with
          tickGroupsUpdatedCh := { len := 1, cap := 1, closed := false }
          nextTicker := 1
          events := (BeginPlay env A).1 ++ (BeginPlay env B).1 ++ (EndPlay env A rA).1
            ++ (EndPlay env B rB).1 },
        Outcome.returned none) := by
    rw [RemoveActor_of_lists env _ { NewManager with
          tickGroupsUpdatedCh := { len := 1, cap := 1, closed := false }
          nextTicker := 1
          events := (BeginPlay env A).1 ++ (BeginPlay env B).1 ++ (EndPlay env A rA).1 }]
    simp [removeActorFromLists, GoMap.get?, GoMap.entries, assocGet,
      GoMap.delete, assocDel, GoMap.store, assocSet, NewManager]
  rw [r1, r2]
  simp [NewManager]

theorem EndPlay_events (env : Capabilities) (a : Actor) (reason : Option Error) :
    (EndPlay env a reason).1 =
      match assertIntf env.EndPlay a with
      | some _ => [Event.EndPlay a reason]
      | none => [] := by
  unfold EndPlay
  cases assertIntf env.EndPlay a <;> rfl

/-- C9: for every manager and every actor `a` in its registry (recorded with the ticker
`ami.tickGroup`), `RemoveActor(a, reason)` returns nil; afterwards `a` is not in the
registry and not a member of its group; that group is gone if `a` was its last member
and otherwise is the same group without `a`; every other group, and every other actor's
registration and membership in every group, is unchanged; and the trace grows by exactly
one invocation `EndPlay a reason` when `a` implements `EndPlay` (by nothing otherwise). -/
theorem RemoveActor_registered (env : Capabilities) (m : Manager) (a : Actor)
    (reason : Option Error) (ami : actorMgrInfo) (hreg : m.actors.get? a = some ami) :
    (RemoveActor env m a reason).2 = Outcome.returned none ∧
    (RemoveActor env m a reason).1.actors.get? a = none ∧
    (∀ b, b ≠ a → (RemoveActor env m a reason).1.actors.get? b = m.actors.get? b) ∧
    a ∉ (RemoveActor env m a reason).1.members ami.tickGroup ∧
    (∀ tg, m.tickGroups.get? ami.tickGroup = some tg →
      (RemoveActor env m a reason).1.tickGroups.get? ami.tickGroup =
        if tg.list.filter (fun x => decide (x ≠ a)) = [] then none
        else some { tg with list := tg.list.filter (fun x => decide (x ≠ a)) }) ∧
    (∀ k, k ≠ ami.tickGroup →
      (RemoveActor env m a reason).1.tickGroups.get? k = m.tickGroups.get? k) ∧
    (∀ b, b ≠ a → ∀ k, b ∈ (RemoveActor env m a reason).1.members k ↔ b ∈ m.members k) ∧
    (RemoveActor env m a reason).1.events =
      m.events ++ (match assertIntf env.EndPlay a with
        | some _ => [Event.EndPlay a reason]
        | none => []) := by
  have hane : ∀ b, b ≠ a → a ≠ b := fun b h => fun h2 => h h2.symm
  cases hg : m.tickGroups.get? ami.tickGroup with
  | none =>
    have hl : removeActorFromLists m a = ({ m with actors := m.actors.delete a }, none) := by
      simp [removeActorFromLists, hreg, hg]
    rw [RemoveActor_of_lists env m _ a reason hl]
    refine ⟨rfl, ?_, ?_, ?_, ?_, ?_, ?_, ?_⟩
    · exact GoMap.get?_delete_self _ _
    · intro b hb
      exact GoMap.get?_delete_ne _ (hane b hb)
    · simp [Manager.members, hg]
    · intro tg htg
      simp at htg
    · intro k _
      rfl
    · intro b _ k
      rfl
    · simp [EndPlay_events]
  | some tg =>
    have hnil : m.tickGroups.isNil = false := GoMap.isNil_of_get? hg
    by_cases hemp : tg.list.filter (fun x => decide (x ≠ a)) = []
    · have hl : removeActorFromLists m a =
          ({ m with
              actors := m.actors.delete a
              tickGroups := (m.tickGroups.store ami.tickGroup
                { tg with list := tg.list.filter (fun x => decide (x ≠ a)) }).delete ami.tickGroup
              tickGroupTickers := m.tickGroupTickers.delete
                (match m.tickGroupTickers.entries.find?
                    (fun kv => decide (kv.2 = ami.tickGroup)) with
                  | some kv => kv.1
                  | none => 0) }, none) := by
        have hlen : (tg.list.filter (fun x => decide (x ≠ a))).length = 0 := by
          rw [hemp]; rfl
        unfold removeActorFromLists
        simp only [hreg, hg, hlen, if_true]
      rw [RemoveActor_of_lists env m _ a reason hl]
      refine ⟨rfl, ?_, ?_, ?_, ?_, ?_, ?_, ?_⟩
      · exact GoMap.get?_delete_self _ _
      · intro b hb
        exact GoMap.get?_delete_ne _ (hane b hb)
      · simp [Manager.members, GoMap.get?_delete_self]
      · intro tg2 htg2
        cases htg2
        rw [if_pos hemp]
        exact GoMap.get?_delete_self _ _
      · intro k hk
        simp [GoMap.get?_delete_ne _ (Ne.symm hk), GoMap.get?_store_ne _ _ (Ne.symm hk)]
      · intro b hb k
        by_cases hk : k = ami.tickGroup
        · subst hk
          have hbn : b ∉ tg.list := by
            intro hmem
            have : b ∈ tg.list.filter (fun x => decide (x ≠ a)) := by
              simp [List.mem_filter, hmem, hb]
            rw [hemp] at this
            simp at this
          simp [Manager.members, GoMap.get?_delete_self, hg, hbn]
        · simp [Manager.members, GoMap.get?_delete_ne _ (Ne.symm hk),
            GoMap.get?_store_ne _ _ (Ne.symm hk)]
      · simp [EndPlay_events]
    · have hl : removeActorFromLists m a =
          ({ m with
              actors := m.actors.delete a
              tickGroups := m.tickGroups.store ami.tickGroup
                { tg with list := tg.list.filter (fun x => decide (x ≠ a)) } }, none) := by
        have hlen : ¬ (tg.list.filter (fun x => decide (x ≠ a))).length = 0 := by
          rw [List.length_eq_zero]; exact hemp
        unfold removeActorFromLists
        simp only [hreg, hg, hlen, if_false]
      rw [RemoveActor_of_lists env m _ a reason hl]
      refine ⟨rfl, ?_, ?_, ?_, ?_, ?_, ?_, ?_⟩
      · exact GoMap.get?_delete_self _ _
      · intro b hb
        exact GoMap.get?_delete_ne _ (hane b hb)
      · simp [Manager.members, GoMap.get?_store_self _ _ _ hnil]
      · intro tg2 htg2
        cases htg2
        rw [if_neg hemp]
        exact GoMap.get?_store_self _ _ _ hnil
      · intro k hk
        simp [GoMap.get?_store_ne _ _ (Ne.symm hk)]
      · intro b hb k
        by_cases hk : k = ami.tickGroup
        · subst hk
          simp [Manager.members, GoMap.get?_store_self _ _ _ hnil, hg, List.mem_filter, hb]
        · simp [Manager.members, GoMap.get?_store_ne _ _ (Ne.symm hk)]
      · simp [EndPlay_events]

theorem signalUpdated_false (m : Manager) :
    signalUpdated m false = (m, Outcome.returned none) := by
  simp [signalUpdated]

theorem signalUpdated_true (m : Manager) (hopen : m.tickGroupsUpdatedCh.closed = false)
    (hroom : m.tickGroupsUpdatedCh.len < m.tickGroupsUpdatedCh.cap) :
    signalUpdated m true =
      ({ m with tickGroupsUpdatedCh :=
          { m.tickGroupsUpdatedCh with len := m.tickGroupsUpdatedCh.len + 1 } },
        Outcome.returned none) := by
  simp [signalUpdated, Chan.send, hopen, hroom]

/-- Whatever `signalUpdated` does when it returns, it touches the channel only. -/
theorem signalUpdated_returns (m : Manager) (u : Bool)
    (hopen : m.tickGroupsUpdatedCh.closed = false)
    (hroom : u = true → m.tickGroupsUpdatedCh.len < m.tickGroupsUpdatedCh.cap) :
    ∃ c, signalUpdated m u = ({ m with tickGroupsUpdatedCh := c }, Outcome.returned none) ∧
      (u = false → c = m.tickGroupsUpdatedCh) := by
  cases u with
  | false => exact ⟨m.tickGroupsUpdatedCh, signalUpdated_false m, fun _ => rfl⟩
  | true =>
    exact ⟨_, signalUpdated_true m hopen (hroom rfl), fun h => by cases h⟩

theorem joinTickGroup_spec (now : Time) (m1 : Manager) (a : Actor) (t : TickerPtr)
    (updated : Bool)
    (ha : m1.actors.isNil = false) (hg : m1.tickGroups.isNil = false)
    (hopen : m1.tickGroupsUpdatedCh.closed = false)
    (hnew : m1.actors.get? a = none)
    (hmem : ∀ kv ∈ m1.tickGroups.entries, ∀ b ∈ kv.2.list, (m1.actors.get? b).isSome = true)
    (hroom : (updated = true ∨ m1.tickGroups.get? t = none) →
      m1.tickGroupsUpdatedCh.len < m1.tickGroupsUpdatedCh.cap) :
    (joinTickGroup now m1 a t updated).2 = Outcome.returned none ∧
    (joinTickGroup now m1 a t updated).1.actors.get? a = some { tickGroup := t } ∧
    (∀ b, b ≠ a → (joinTickGroup now m1 a t updated).1.actors.get? b = m1.actors.get? b) ∧
    ((joinTickGroup now m1 a t updated).1.tickGroups.get? t).isSome = true ∧
    (∀ k, a ∈ (joinTickGroup now m1 a t updated).1.members k ↔ k = t) ∧
    (∀ b, b ≠ a → ∀ k, b ∈ (joinTickGroup now m1 a t updated).1.members k ↔ b ∈ m1.members k) ∧
    (∀ k, k ≠ t → (joinTickGroup now m1 a t updated).1.tickGroups.get? k = m1.tickGroups.get? k) ∧
    (joinTickGroup now m1 a t updated).1.tickGroupTickers = m1.tickGroupTickers ∧
    (joinTickGroup now m1 a t updated).1.nextTicker = m1.nextTicker ∧
    (joinTickGroup now m1 a t updated).1.events = m1.events ∧
    (updated = false → (m1.tickGroups.get? t).isSome = true →
      (joinTickGroup now m1 a t updated).1.tickGroupsUpdatedCh = m1.tickGroupsUpdatedCh) := by
  have hane : ∀ b, b ≠ a → a ≠ b := fun b h => fun h2 => h h2.symm
  have hnotmem : ∀ k, k ≠ t → a ∉ m1.members k := by
    intro k _ hmemk
    unfold Manager.members at hmemk
    cases hk : m1.tickGroups.get? k with
    | none => simp [hk] at hmemk
    | some tg =>
      simp only [hk] at hmemk
      have := hmem (k, tg) (assocGet_mem _ _ _ hk) a hmemk
      rw [hnew] at this
      simp at this
  cases hgt : m1.tickGroups.get? t with
  | some tg =>
    obtain ⟨c, hc, hcu⟩ := signalUpdated_returns
      { m1 with
          actors := m1.actors.store a { tickGroup := t }
          tickGroups := m1.tickGroups.store t { tg with list := tg.list.insert a } }
      updated hopen (fun hu => hroom (Or.inl hu))
    have hj : joinTickGroup now m1 a t updated =
        ({ m1 with
            actors := m1.actors.store a { tickGroup := t }
            tickGroups := m1.tickGroups.store t { tg with list := tg.list.insert a }
            tickGroupsUpdatedCh := c }, Outcome.returned none) := by
      unfold joinTickGroup
      simp only [ha, hgt, Bool.false_eq_true, if_false]
      exact hc
    rw [hj]
    refine ⟨rfl, ?_, ?_, ?_, ?_, ?_, ?_, rfl, rfl, rfl, ?_⟩
    · exact GoMap.get?_store_self _ _ _ ha
    · intro b hb
      exact GoMap.get?_store_ne _ _ (hane b hb)
    · simp [GoMap.get?_store_self _ _ _ hg]
    · intro k
      by_cases hk : k = t
      · subst hk
        simp [Manager.members, GoMap.get?_store_self _ _ _ hg]
      · have := hnotmem k hk
        simp only [Manager.members, GoMap.get?_store_ne _ _ (Ne.symm hk)] at this ⊢
        simp [this, hk]
    · intro b hb k
      by_cases hk : k = t
      · subst hk
        simp [Manager.members, GoMap.get?_store_self _ _ _ hg, hgt, hb]
      · simp [Manager.members, GoMap.get?_store_ne _ _ (Ne.symm hk)]
    · intro k hk
      exact GoMap.get?_store_ne _ _ (Ne.symm hk)
    · intro hu _
      exact hcu hu
  | none =>
    have hj : joinTickGroup now m1 a t updated =
        ({ m1 with
            actors := m1.actors.store a { tickGroup := t }
            tickGroups := m1.tickGroups.store t { list := [a], lastTick := now }
            tickGroupsUpdatedCh :=
              { m1.tickGroupsUpdatedCh with len := m1.tickGroupsUpdatedCh.len + 1 } },
          Outcome.returned none) := by
      unfold joinTickGroup
      simp only [ha, hg, hgt, Bool.false_eq_true, if_false]
      exact signalUpdated_true _ hopen (hroom (Or.inr hgt))
    rw [hj]
    refine ⟨rfl, ?_, ?_, ?_, ?_, ?_, ?_, rfl, rfl, rfl, ?_⟩
    · exact GoMap.get?_store_self _ _ _ ha
    · intro b hb
      exact GoMap.get?_store_ne _ _ (hane b hb)
    · simp [GoMap.get?_store_self _ _ _ hg]
    · intro k
      by_cases hk : k = t
      · subst hk
        simp [Manager.members, GoMap.get?_store_self _ _ _ hg]
      · have := hnotmem k hk
        simp only [Manager.members, GoMap.get?_store_ne _ _ (Ne.symm hk)] at this ⊢
        simp [this, hk]
    · intro b hb k
      by_cases hk : k = t
      · subst hk
        simp [Manager.members, GoMap.get?_store_self _ _ _ hg, hgt, hb]
      · simp [Manager.members, GoMap.get?_store_ne _ _ (Ne.symm hk)]
    · intro k hk
      exact GoMap.get?_store_ne _ _ (Ne.symm hk)
    · intro _ h
      simp [hgt] at h

/-- C7, amended: on a well-formed manager that is not stopping, for an actor `a` not in
the registry whose `BeginPlay` succeeds and options that all succeed, if the resolved
interval (the default 200ms without options, else what the last option asks for, zero
for every-frame) is not negative and the topology-changed channel has room whenever no
group for that interval exists yet, then `AddActor` returns nil; `a` is registered with
a ticker `t` (nil for every-frame, else the ticker recorded for the interval), the group
of `t` exists, and `a` is a member of the group of `t` and of no other; every other
actor's registration and membership is unchanged; when a group for the interval existed,
no timer and no group is created and no signal is posted; the timers of the other
intervals are unchanged; and the trace grows by the `BeginPlay` dispatch alone. -/
theorem AddActor_admits (env : Capabilities) (now : Time) (m : Manager) (a : Actor)
    (specs : List OptionSpec)
    (hwf : m.WellFormed) (hstop : m.stopping = false) (hnew : m.actors.get? a = none)
    (hbegin : (BeginPlay env a).2 = none)
    (hopts : ∀ e ∈ optionErrors (specs.map OptionSpec.toOption)
      { tickInterval := DefaultTickInterval }, e = none)
    (hpos : 0 ≤ resolvedInterval specs)
    (hroom : m.hasGroupFor (resolvedInterval specs) = false →
      m.tickGroupsUpdatedCh.len < m.tickGroupsUpdatedCh.cap) :
    (AddActor env now m a (specs.map OptionSpec.toOption)).2 = Outcome.returned none ∧
    (∃ t : TickerPtr,
      (AddActor env now m a (specs.map OptionSpec.toOption)).1.actors.get? a
        = some { tickGroup := t } ∧
      (if resolvedInterval specs = 0 then t = none
        else (AddActor env now m a (specs.map OptionSpec.toOption)).1.tickGroupTickers.get?
          (resolvedInterval specs) = some t) ∧
      ((AddActor env now m a (specs.map OptionSpec.toOption)).1.tickGroups.get? t).isSome
        = true ∧
      ∀ k, a ∈ (AddActor env now m a (specs.map OptionSpec.toOption)).1.members k ↔ k = t) ∧
    (∀ b, b ≠ a →
      (AddActor env now m a (specs.map OptionSpec.toOption)).1.actors.get? b = m.actors.get? b ∧
      ∀ k, b ∈ (AddActor env now m a (specs.map OptionSpec.toOption)).1.members k
        ↔ b ∈ m.members k) ∧
    (m.hasGroupFor (resolvedInterval specs) = true →
      (AddActor env now m a (specs.map OptionSpec.toOption)).1.tickGroupTickers
        = m.tickGroupTickers ∧
      (AddActor env now m a (specs.map OptionSpec.toOption)).1.nextTicker = m.nextTicker ∧
      (AddActor env now m a (specs.map OptionSpec.toOption)).1.tickGroupsUpdatedCh
        = m.tickGroupsUpdatedCh ∧
      ∀ k, ((AddActor env now m a (specs.map OptionSpec.toOption)).1.tickGroups.get? k).isSome
        = (m.tickGroups.get? k).isSome) ∧
    (∀ d2, d2 ≠ resolvedInterval specs →
      (AddActor env now m a (specs.map OptionSpec.toOption)).1.tickGroupTickers.get? d2
        = m.tickGroupTickers.get? d2) ∧
    (AddActor env now m a (specs.map OptionSpec.toOption)).1.events
      = m.events ++ (BeginPlay env a).1 := by
  obtain ⟨hA, hG, hT, hopen, hmem⟩ := hwf
  rw [AddActor_of_BeginPlay_ok env now m a _ hstop hnew hbegin, applyOptions_resolved specs hopts]
  generalize resolvedInterval specs = d at hpos hroom ⊢
  generalize hm0 : ({ m with events := m.events ++ (BeginPlay env a).1 } : Manager) = m0
  have e1 : m0.actors = m.actors := by subst hm0; rfl
  have e2 : m0.tickGroups = m.tickGroups := by subst hm0; rfl
  have e3 : m0.tickGroupTickers = m.tickGroupTickers := by subst hm0; rfl
  have e4 : m0.tickGroupsUpdatedCh = m.tickGroupsUpdatedCh := by subst hm0; rfl
  have e5 : m0.nextTicker = m.nextTicker := by subst hm0; rfl
  have e6 : m0.events = m.events ++ (BeginPlay env a).1 := by subst hm0; rfl
  have e7 : ∀ k, m0.members k = m.members k := by intro k; subst hm0; rfl
  have iso : ∀ (r : Manager) (t : TickerPtr), (r.tickGroups.get? t).isSome = true →
      (m.tickGroups.get? t).isSome = true →
      (∀ k, k ≠ t → r.tickGroups.get? k = m.tickGroups.get? k) →
      ∀ k, (r.tickGroups.get? k).isSome = (m.tickGroups.get? k).isSome := by
    intro r t h1 h2 h3 k
    by_cases hk : k = t
    · subst hk; rw [h1, h2]
    · rw [h3 k hk]
  by_cases hd : d = 0
  · subst hd
    have hp : pickTicker m0 0 = Sum.inl (m0, none, false) := by simp [pickTicker]
    have hgf : m.hasGroupFor 0 = (m.tickGroups.get? none).isSome := by simp [Manager.hasGroupFor]
    obtain ⟨j1, j2, j3, j4, j5, j6, j7, j8, j9, j10, j11⟩ :=
      joinTickGroup_spec now m0 a none false (e1 ▸ hA) (e2 ▸ hG) (e4 ▸ hopen) (e1 ▸ hnew)
        (by rw [e1, e2]; exact hmem)
        (by
          intro h
          rw [e4]
          apply hroom
          rw [hgf]
          rcases h with h | h
          · cases h
          · rw [e2] at h; simp [h])
    simp only [addActorLocked, hp]
    refine ⟨j1, ⟨none, j2, by simp, j4, j5⟩, ?_, ?_, ?_, ?_⟩
    · intro b hb
      exact ⟨by rw [j3 b hb, e1], fun k => by rw [j6 b hb k, e7]⟩
    · intro hex
      rw [hgf] at hex
      refine ⟨by rw [j8, e3], by rw [j9, e5], by rw [j11 rfl (e2 ▸ hex), e4], ?_⟩
      exact iso _ none j4 hex (fun k hk => by rw [j7 k hk, e2])
    · intro d2 _
      rw [j8, e3]
    · rw [j10, e6]
  · cases ht : m.tickGroupTickers.get? d with
    | some t =>
      have hp : pickTicker m0 d = Sum.inl (m0, t, false) := by
        simp [pickTicker, hd, e3, ht]
      have hgf : m.hasGroupFor d = (m.tickGroups.get? t).isSome := by
        simp [Manager.hasGroupFor, hd, ht]
      obtain ⟨j1, j2, j3, j4, j5, j6, j7, j8, j9, j10, j11⟩ :=
        joinTickGroup_spec now m0 a t false (e1 ▸ hA) (e2 ▸ hG) (e4 ▸ hopen) (e1 ▸ hnew)
          (by rw [e1, e2]; exact hmem)
          (by
            intro h
            rw [e4]
            apply hroom
            rw [hgf]
            rcases h with h | h
            · cases h
            · rw [e2] at h; simp [h])
      simp only [addActorLocked, hp]
      refine ⟨j1, ⟨t, j2, ?_, j4, j5⟩, ?_, ?_, ?_, ?_⟩
      · rw [if_neg hd, j8, e3, ht]
      · intro b hb
        exact ⟨by rw [j3 b hb, e1], fun k => by rw [j6 b hb k, e7]⟩
      · intro hex
        rw [hgf] at hex
        refine ⟨by rw [j8, e3], by rw [j9, e5], by rw [j11 rfl (e2 ▸ hex), e4], ?_⟩
        exact iso _ t j4 hex (fun k hk => by rw [j7 k hk, e2])
      · intro d2 _
        rw [j8, e3]
      · rw [j10, e6]
    | none =>
      have hdn : ¬ d ≤ 0 := fun hle => hd (le_antisymm hle hpos)
      have hp : pickTicker m0 d = Sum.inl ({ m0 with
          tickGroupTickers := m0.tickGroupTickers.store d (some m0.nextTicker)
          nextTicker := m0.nextTicker + 1 }, some m0.nextTicker, true) := by
        simp [pickTicker, hd, e3, ht, hdn, hT]
      have hgf : m.hasGroupFor d = false := by
        simp [Manager.hasGroupFor, hd, ht]
      obtain ⟨j1, j2, j3, j4, j5, j6, j7, j8, j9, j10, _⟩ :=
        joinTickGroup_spec now { m0 with
            tickGroupTickers := m0.tickGroupTickers.store d (some m0.nextTicker)
            nextTicker := m0.nextTicker + 1 } a (some m0.nextTicker) true
          (e1 ▸ hA) (e2 ▸ hG) (e4 ▸ hopen) (e1 ▸ hnew)
          (by
            show ∀ kv ∈ m0.tickGroups.entries, ∀ b ∈ kv.2.list, (m0.actors.get? b).isSome = true
            rw [e1, e2]; exact hmem)
          (by
            intro _
            show m0.tickGroupsUpdatedCh.len < m0.tickGroupsUpdatedCh.cap
            rw [e4]
            exact hroom hgf)
      simp only [addActorLocked, hp]
      refine ⟨j1, ⟨some m0.nextTicker, j2, ?_, j4, j5⟩, ?_, ?_, ?_, ?_⟩
      · rw [if_neg hd, j8]
        exact GoMap.get?_store_self _ _ _ (e3 ▸ hT)
      · intro b hb
        refine ⟨by rw [j3 b hb]; exact congrArg (fun x => GoMap.get? x b) e1, fun k => ?_⟩
        rw [j6 b hb k]
        exact Eq.to_iff (congrArg (fun l => b ∈ l) (e7 k))
      · intro hex
        rw [hgf] at hex
        cases hex
      · intro d2 hd2
        rw [j8]
        show (m0.tickGroupTickers.store d (some m0.nextTicker)).get? d2 = _
        rw [GoMap.get?_store_ne _ _ (Ne.symm hd2), e3]
      · rw [j10]
        exact e6


/-! ## Evaluations -/

/-- `Stop` invokes no method at all: whatever the manager and however the call ends, the
trace of invocations is unchanged. -/
theorem Stop_events_unchanged (env : Capabilities) (m : Manager) :
    (Stop env m).1.events = m.events := by
  unfold Stop
  by_cases h0 : m.stopping = true
  · simp [h0]
  · simp only [h0, Bool.false_eq_true, if_false]
    split
    · rfl
    · rename_i m2 hm2
      simp only [foldl_stopActor_mgrInfo]
      rw [(closeChannels_fields _).2.2.2.2]
      split at hm2
      · unfold recvTickStopped at hm2
        split at hm2
        · cases hm2; rfl
        · split at hm2
          · cases hm2; rfl
          · split at hm2
            · cases hm2; rfl
            · simp at hm2
      · cases hm2; rfl

/-- C7, the claim as stated fails.  First input: a manager made by `NewManager`, never
started, holding actor 1 in the default group (so one topology signal is buffered); it
is well formed and not stopping, actor 2 is not registered and implements no `BeginPlay`,
and the option `TickEveryFrame()` succeeds; yet `AddActor` does not return: it is
suspended for ever on the send to the full topology-changed channel.  Second input: on a
fresh manager the option `TickInterval(-1)` succeeds, and `AddActor` panics in
`time.NewTicker`. -/
theorem AddActor_admits_counterexample :
    ((AddActor Capabilities.none 0 NewManager (Actor.object 1) []).1.WellFormed ∧
      (AddActor Capabilities.none 0 NewManager (Actor.object 1) []).1.stopping = false ∧
      (AddActor Capabilities.none 0 NewManager (Actor.object 1) []).1.actors.get?
        (Actor.object 2) = none ∧
      (BeginPlay Capabilities.none (Actor.object 2)).2 = none ∧
      optionErrors [TickEveryFrame] { tickInterval := DefaultTickInterval } = [none] ∧
      (AddActor Capabilities.none 1
        (AddActor Capabilities.none 0 NewManager (Actor.object 1) []).1
        (Actor.object 2) [TickEveryFrame]).2 = Outcome.blocked) ∧
    (optionErrors [TickInterval (-1)] { tickInterval := DefaultTickInterval } = [none] ∧
      (AddActor Capabilities.none 0 NewManager (Actor.object 1) [TickInterval (-1)]).2
        = Outcome.panicked Panic.nonPositiveTickerInterval) := by
  decide

/-- Witness of C7: actor 2 joins the 50ns group of actor 1; the later option wins. -/
theorem AddActor_admits_witness :
    (AddActor Capabilities.none 9
        (AddActor Capabilities.none 0 NewManager (Actor.object 1) [TickInterval 50]).1
        (Actor.object 2)
        ([OptionSpec.TickEveryFrame, OptionSpec.TickInterval 50].map OptionSpec.toOption)).2
      = Outcome.returned none :=
  (AddActor_admits Capabilities.none 9
    (AddActor Capabilities.none 0 NewManager (Actor.object 1) [TickInterval 50]).1
    (Actor.object 2) [OptionSpec.TickEveryFrame, OptionSpec.TickInterval 50]
    (by decide) (by decide) (by decide) (by decide) (by decide) (by decide) (by decide)).1

/-- Witness of C8: actors 1 and 2 on the interval 50; in the end no group is left. -/
theorem shared_interval_group_witness :
    (RemoveActor envEndPlay (RemoveActor envEndPlay (AddActor envEndPlay 1
        (AddActor envEndPlay 0 NewManager (Actor.object 1) [TickInterval 50]).1
        (Actor.object 2) [TickInterval 50]).1 (Actor.object 1) none).1 (Actor.object 2)
        none).1.tickGroups = GoMap.mk [] :=
  (shared_interval_group envEndPlay 50 (Actor.object 1) (Actor.object 2) 0 1 none none
    (by decide) (by decide) (by decide) (by decide)).2.2.2.2.2.2.2

/-- Witness of C9: actor 1, the only member of its group, is removed. -/
theorem RemoveActor_registered_witness :
    (RemoveActor envEndPlay (AddActor envEndPlay 0 NewManager (Actor.object 1) []).1
        (Actor.object 1) (some (Error.other 3))).1.actors.get? (Actor.object 1) = none :=
  (RemoveActor_registered envEndPlay (AddActor envEndPlay 0 NewManager (Actor.object 1) []).1
    (Actor.object 1) (some (Error.other 3)) { tickGroup := some 0 } (by decide)).2.1

/-! ## The capability dispatchers and the spawn sequence -/

/-- C13: for each of the fourteen dispatch functions of `util.go` and every actor: when
the actor does not implement the capability, the function invokes nothing and returns
nil (`WantTick` returns `(true, nil)`); when it does, the function makes exactly one
invocation, with the arguments it was given, and returns exactly what the method
returns, error included. -/
theorem dispatchers_invoke_once_or_not_at_all (env : Capabilities) (a : Actor)
    (deltaTime : Duration) (reason : Option Error) :
    ((assertIntf env.PostSpawnInitialize a = none → PostSpawnInitialize env a = ([], none)) ∧
      ∀ r, assertIntf env.PostSpawnInitialize a = some r →
        PostSpawnInitialize env a = ([Event.PostSpawnInitialize a], r)) ∧
    ((assertIntf env.ExecuteConstruction a = none → ExecuteConstruction env a = ([], none)) ∧
      ∀ r, assertIntf env.ExecuteConstruction a = some r →
        ExecuteConstruction env a = ([Event.ExecuteConstruction a], r)) ∧
    ((assertIntf env.OnConstruction a = none → OnConstruction env a = ([], none)) ∧
      ∀ r, assertIntf env.OnConstruction a = some r →
        OnConstruction env a = ([Event.OnConstruction a], r)) ∧
    ((assertIntf env.PostActorConstruction a = none →
        PostActorConstruction env a = ([], none)) ∧
      ∀ r, assertIntf env.PostActorConstruction a = some r →
        PostActorConstruction env a = ([Event.PostActorConstruction a], r)) ∧
    ((assertIntf env.PreInitializeComponents a = none →
        PreInitializeComponents env a = ([], none)) ∧
      ∀ r, assertIntf env.PreInitializeComponents a = some r →
        PreInitializeComponents env a = ([Event.PreInitializeComponents a], r)) ∧
    ((assertIntf env.InitializeComponents a = none →
        InitializeComponents env a = ([], none)) ∧
      ∀ r, assertIntf env.InitializeComponents a = some r →
        InitializeComponents env a = ([Event.InitializeComponents a], r)) ∧
    ((assertIntf env.PostInitializeComponents a = none →
        PostInitializeComponents env a = ([], none)) ∧
      ∀ r, assertIntf env.PostInitializeComponents a = some r →
        PostInitializeComponents env a = ([Event.PostInitializeComponents a], r)) ∧
    ((assertIntf env.OnActorSpawned a = none → OnActorSpawned env a = ([], none)) ∧
      ∀ r, assertIntf env.OnActorSpawned a = some r →
        OnActorSpawned env a = ([Event.OnActorSpawned a], r)) ∧
    ((assertIntf env.BeginPlay a = none → BeginPlay env a = ([], none)) ∧
      ∀ r, assertIntf env.BeginPlay a = some r →
        BeginPlay env a = ([Event.BeginPlay a], r)) ∧
    ((assertIntf env.Tick a = none → Tick env a deltaTime = ([], none)) ∧
      ∀ f, assertIntf env.Tick a = some f →
        Tick env a deltaTime = ([Event.Tick a deltaTime], f deltaTime)) ∧
    ((assertIntf env.WantTick a = none → WantTick env a = ([], (true, none))) ∧
      ∀ r, assertIntf env.WantTick a = some r →
        WantTick env a = ([Event.WantTick a], r)) ∧
    ((assertIntf env.EndPlay a = none → EndPlay env a reason = ([], none)) ∧
      ∀ f, assertIntf env.EndPlay a = some f →
        EndPlay env a reason = ([Event.EndPlay a reason], f reason)) ∧
    ((assertIntf env.BeginDestroy a = none → BeginDestroy env a = ([], none)) ∧
      ∀ r, assertIntf env.BeginDestroy a = some r →
        BeginDestroy env a = ([Event.BeginDestroy a], r)) ∧
    ((assertIntf env.FinishDestroy a = none → FinishDestroy env a = ([], none)) ∧
      ∀ r, assertIntf env.FinishDestroy a = some r →
        FinishDestroy env a = ([Event.FinishDestroy a], r)) := by
  refine ⟨⟨?_, ?_⟩, ⟨?_, ?_⟩, ⟨?_, ?_⟩, ⟨?_, ?_⟩, ⟨?_, ?_⟩, ⟨?_, ?_⟩, ⟨?_, ?_⟩, ⟨?_, ?_⟩,
    ⟨?_, ?_⟩, ⟨?_, ?_⟩, ⟨?_, ?_⟩, ⟨?_, ?_⟩, ⟨?_, ?_⟩, ⟨?_, ?_⟩⟩
  · intro h; simp [PostSpawnInitialize, h]
  · intro r h; simp [PostSpawnInitialize, h]
  · intro h; simp [ExecuteConstruction, h]
  · intro r h; simp [ExecuteConstruction, h]
  · intro h; simp [OnConstruction, h]
  · intro r h; simp [OnConstruction, h]
  · intro h; simp [PostActorConstruction, h]
  · intro r h; simp [PostActorConstruction, h]
  · intro h; simp [PreInitializeComponents, h]
  · intro r h; simp [PreInitializeComponents, h]
  · intro h; simp [InitializeComponents, h]
  · intro r h; simp [InitializeComponents, h]
  · intro h; simp [PostInitializeComponents, h]
  · intro r h; simp [PostInitializeComponents, h]
  · intro h; simp [OnActorSpawned, h]
  · intro r h; simp [OnActorSpawned, h]
  · intro h; simp [BeginPlay, h]
  · intro r h; simp [BeginPlay, h]
  · intro h; simp [Tick, h]
  · intro f h; simp [Tick, h]
  · intro h; simp [WantTick, h]
  · intro r h; simp [WantTick, h]
  · intro h; simp [EndPlay, h]
  · intro f h; simp [EndPlay, h]
  · intro h; simp [BeginDestroy, h]
  · intro r h; simp [BeginDestroy, h]
  · intro h; simp [FinishDestroy, h]
  · intro r h; simp [FinishDestroy, h]

/-- A dispatcher that returns nil has made the one invocation when the method is there
and none otherwise. -/
theorem dispatch_shape (o : Option (Option Error)) (ev : Event)
    (h : (match o with
      | some r => ([ev], r)
      | none => (([], none) : List Event × Option Error)).2 = none) :
    (match o with
      | some r => ([ev], r)
      | none => (([], none) : List Event × Option Error))
      = ((if o.isSome then [ev] else []), none) := by
  cases o with
  | none => rfl
  | some r =>
    simp only at h
    subst h
    rfl

theorem filter_cons_append {α : Type} (p : α → Bool) (x : α) (xs : List α) :
    List.filter p (x :: xs) = (if p x then [x] else []) ++ List.filter p xs := by
  by_cases h : p x <;> simp [List.filter_cons, h]

/-- `FinishSpawningActor` when the seven hooks it runs succeed and the options do. -/
theorem FinishSpawningActor_events (env : Capabilities) (a : Actor)
    (opts : List SpawnActorOption) (s : spawnActorSettings)
    (hopts : applySpawnOptions opts { deferredSpawn := false } = Sum.inl s)
    (h : spawnHooksSucceed env a) :
    FinishSpawningActor env a opts =
      (((spawnHookOrder a).drop 1).filter env.implementsEvent, none) := by
  obtain ⟨_, h2, h3, h4, h5, h6, h7, h8⟩ := h
  have e2 : ExecuteConstruction env a = _ := dispatch_shape _ (Event.ExecuteConstruction a) h2
  have e3 : OnConstruction env a = _ := dispatch_shape _ (Event.OnConstruction a) h3
  have e4 : PostActorConstruction env a = _ :=
    dispatch_shape _ (Event.PostActorConstruction a) h4
  have e5 : PreInitializeComponents env a = _ :=
    dispatch_shape _ (Event.PreInitializeComponents a) h5
  have e6 : InitializeComponents env a = _ :=
    dispatch_shape _ (Event.InitializeComponents a) h6
  have e7 : PostInitializeComponents env a = _ :=
    dispatch_shape _ (Event.PostInitializeComponents a) h7
  have e8 : OnActorSpawned env a = _ := dispatch_shape _ (Event.OnActorSpawned a) h8
  unfold FinishSpawningActor
  simp only [hopts, e2, e3, e4, e5, e6, e7, e8, thenHook, spawnHookOrder, List.drop,
    filter_cons_append, List.filter_nil, Capabilities.implementsEvent, List.append_nil,
    List.append_assoc]

theorem PostSpawnInitialize_events (env : Capabilities) (a : Actor)
    (h : spawnHooksSucceed env a) :
    PostSpawnInitialize env a =
      (((spawnHookOrder a).take 1).filter env.implementsEvent, none) := by
  have e1 : PostSpawnInitialize env a = _ :=
    dispatch_shape _ (Event.PostSpawnInitialize a) h.1
  rw [e1]
  simp only [spawnHookOrder, List.take, filter_cons_append, List.filter_nil,
    Capabilities.implementsEvent, List.append_nil]

/-- `SpawnActor` without options, when every hook succeeds. -/
theorem SpawnActor_hooks_all (env : Capabilities) (id : Nat)
    (h : spawnHooksSucceed env (Actor.object id)) :
    SpawnActor env id [] =
      ((spawnHookOrder (Actor.object id)).filter env.implementsEvent,
        (some (Actor.object id), none)) := by
  unfold SpawnActor
  simp only [applySpawnOptions, PostSpawnInitialize_events env _ h,
    FinishSpawningActor_events env _ [] { deferredSpawn := false } rfl h,
    Bool.false_eq_true, if_false]
  rw [← List.filter_append, List.take_append_drop]

/-- C11: for every new object whose construction hooks all succeed, `SpawnActor` without
options returns the object and nil, and the invocations it made are exactly the hooks
the object implements, each once, in the fixed order `PostSpawnInitialize`,
`ExecuteConstruction`, `OnConstruction`, `PostActorConstruction`,
`PreInitializeComponents`, `InitializeComponents`, `PostInitializeComponents`,
`OnActorSpawned` (so a running counter kept by the hooks numbers them from 1 in that
order). -/
theorem SpawnActor_runs_hooks_in_order (env : Capabilities) (id : Nat)
    (h : spawnHooksSucceed env (Actor.object id)) :
    SpawnActor env id [] =
      ((spawnHookOrder (Actor.object id)).filter env.implementsEvent,
        (some (Actor.object id), none)) := by
  have hpost := PostSpawnInitialize_events env (Actor.object id) h
  have hfin := FinishSpawningActor_events env (Actor.object id) []
    { deferredSpawn := false } rfl h
  unfold SpawnActor
  simp only [applySpawnOptions, hpost, hfin, Bool.false_eq_true, if_false]
  rw [← List.filter_append, List.take_append_drop]

/-- Witness of C11: an object of the kind the tests spawn; the seven hooks it has are
numbered 1 to 7. -/
theorem SpawnActor_runs_hooks_in_order_witness :
    SpawnActor envSpawnTest 1 [] =
      ([Event.PostSpawnInitialize (Actor.object 1), Event.ExecuteConstruction (Actor.object 1),
        Event.OnConstruction (Actor.object 1), Event.PostActorConstruction (Actor.object 1),
        Event.PreInitializeComponents (Actor.object 1),
        Event.InitializeComponents (Actor.object 1), Event.OnActorSpawned (Actor.object 1)],
        (some (Actor.object 1), none)) :=
  SpawnActor_runs_hooks_in_order envSpawnTest 1 (by decide)

/-- C12: for every new object whose construction hooks all succeed, `SpawnActor` with
`DeferredSpawnActor` returns the object having invoked `PostSpawnInitialize` alone (once,
if the object implements it) and none of the seven later hooks; `FinishSpawningActor` on
that object, passed the same options, invokes the seven later hooks the object
implements, each once, in the fixed order, and no `PostSpawnInitialize`; the two
sequences of invocations together are the sequence of `SpawnActor` without options. -/
theorem deferred_spawn_then_finish (env : Capabilities) (id : Nat)
    (h : spawnHooksSucceed env (Actor.object id)) :
    SpawnActor env id [DeferredSpawnActor] =
      (([Event.PostSpawnInitialize (Actor.object id)]).filter env.implementsEvent,
        (some (Actor.object id), none)) ∧
    FinishSpawningActor env (Actor.object id) [DeferredSpawnActor] =
      (([Event.ExecuteConstruction (Actor.object id), Event.OnConstruction (Actor.object id),
          Event.PostActorConstruction (Actor.object id),
          Event.PreInitializeComponents (Actor.object id),
          Event.InitializeComponents (Actor.object id),
          Event.PostInitializeComponents (Actor.object id),
          Event.OnActorSpawned (Actor.object id)]).filter env.implementsEvent, none) ∧
    (SpawnActor env id [DeferredSpawnActor]).1 ++
        (FinishSpawningActor env (Actor.object id) [DeferredSpawnActor]).1
      = (SpawnActor env id []).1 := by
  have hs : SpawnActor env id [DeferredSpawnActor] =
      (([Event.PostSpawnInitialize (Actor.object id)]).filter env.implementsEvent,
        (some (Actor.object id), none)) := by
    unfold SpawnActor
    simp only [applySpawnOptions, DeferredSpawnActor, PostSpawnInitialize_events env _ h,
      if_true]
    rfl
  have hf := FinishSpawningActor_events env (Actor.object id) [DeferredSpawnActor]
    { deferredSpawn := true } rfl h
  refine ⟨hs, hf, ?_⟩
  rw [hs, hf, SpawnActor_hooks_all env id h]
  show List.filter _ ((spawnHookOrder (Actor.object id)).take 1) ++ _ = _
  rw [← List.filter_append, List.take_append_drop]

/-! ## Shutdown, the manual frame trigger and the wait list -/

/-- Witness of C12: an object of the kind the tests spawn, deferred and then finished. -/
theorem deferred_spawn_then_finish_witness :
    (SpawnActor envSpawnTest 1 [DeferredSpawnActor]).1 ++
        (FinishSpawningActor envSpawnTest (Actor.object 1) [DeferredSpawnActor]).1
      = (SpawnActor envSpawnTest 1 []).1 :=
  (deferred_spawn_then_finish envSpawnTest 1 (by decide)).2.2

/-- C16: for every manager, when a call of `Stop` has returned, a second call of `Stop`
(in any environment) returns at once and leaves the whole state as the first call left
it: no field changes, the trace gains no invocation, no channel is closed again. -/
theorem Stop_twice (env env2 : Capabilities) (m : Manager)
    (hret : (Stop env m).2 = Outcome.returned none) :
    Stop env2 (Stop env m).1 = ((Stop env m).1, Outcome.returned none) := by
  have hs : (Stop env m).1.stopping = true := by
    by_cases h0 : m.stopping = true
    · rw [Stop_stopping env m h0]; exact h0
    · exact (Stop_returned env m (by simpa using h0) hret).1
  exact Stop_stopping env2 _ hs

/-- Witness of C16: a started manager holding one actor is stopped twice. -/
theorem Stop_twice_witness :
    Stop envEndPlay (Stop envEndPlay
        (StartTicking (AddActor envEndPlay 0 NewManager (Actor.object 1) []).1)).1
      = ((Stop envEndPlay
          (StartTicking (AddActor envEndPlay 0 NewManager (Actor.object 1) []).1)).1,
        Outcome.returned none) :=
  Stop_twice envEndPlay envEndPlay
    (StartTicking (AddActor envEndPlay 0 NewManager (Actor.object 1) []).1) (by decide)

/-- C17, the claim as stated fails: a manager returned by `NewManager`, on which
`StartTicking` was never called (no cancel function, no scheduler goroutine) and `Stop`
neither: `TickFrame` posts the manual-frame trigger and returns nil. -/
theorem TickFrame_unstarted_counterexample :
    NewManager.cancelFunc = false ∧ NewManager.loop = LoopState.notStarted ∧
    TickFrame NewManager =
      ({ NewManager with tickFrameCh := { len := 1, cap := 1, closed := false } },
        Outcome.returned none) := by
  decide

/-- C17, amended: `TickFrame` returns `ErrManagerStopped` exactly on a manager on which
`Stop` has been called (the `stopping` flag is set), and then posts no manual-frame
trigger and changes nothing; on a manager that is not stopping, started or not, it
never returns `ErrManagerStopped`, and when the manual-frame channel is open and has room
it posts the trigger and returns nil. -/
theorem TickFrame_rejects_iff_stopping (m : Manager) :
    (m.stopping = true →
      TickFrame m = (m, Outcome.returned (some Error.ErrManagerStopped))) ∧
    ((TickFrame m).2 = Outcome.returned (some Error.ErrManagerStopped) ↔ m.stopping = true) ∧
    (m.stopping = false → m.tickFrameCh.closed = false →
      m.tickFrameCh.len < m.tickFrameCh.cap →
      TickFrame m =
        ({ m with tickFrameCh := { m.tickFrameCh with len := m.tickFrameCh.len + 1 } },
          Outcome.returned none)) := by
  refine ⟨?_, ?_, ?_⟩
  · intro h
    simp [TickFrame, h]
  · constructor
    · intro h
      by_cases hs : m.stopping = true
      · exact hs
      · exfalso
        unfold TickFrame at h
        simp only [hs, if_false] at h
        cases hsend : m.tickFrameCh.send <;> simp [hsend] at h
    · intro h
      simp [TickFrame, h]
  · intro hs hc hl
    simp [TickFrame, hs, Chan.send, hc, hl]

/-- C15, the code at a failing input: a started manager holds actor 1, whose `Tick`
returns an error, in the group of ticker 0.  The group fires: `Tick` is invoked, the
goroutine panics and its deferred `Stop` sets `stopping`, then waits for ever on
`tickStoppedCh`, whose send the panic skipped.  `Stop` never completes: the three
registries keep their entries and no channel is closed.  A later `Stop` returns at once
and clears nothing; `AddActor` and `TickFrame` do return `ErrManagerStopped`. -/
theorem tick_error_leaves_Stop_blocked :
    (mainTickLoopFire envTickFails 100
      (StartTicking (AddActor envTickFails 5 NewManager (Actor.object 1) [TickInterval 50]).1)
      (some 0)).2 = some Outcome.blocked ∧
    (mainTickLoopFire envTickFails 100
      (StartTicking (AddActor envTickFails 5 NewManager (Actor.object 1) [TickInterval 50]).1)
      (some 0)).1 =
      { NewManager with
          actors := GoMap.mk [(Actor.object 1, { tickGroup := some 0 })]
          tickGroups := GoMap.mk [(some 0, { list := [Actor.object 1], lastTick := 5 })]
          tickGroupTickers := GoMap.mk [(50, some 0)]
          tickGroupsUpdatedCh := { len := 1, cap := 1, closed := false }
          stopping := true
          cancelFunc := true
          loop := LoopState.exited
          nextTicker := 1
          events := [Event.Tick (Actor.object 1) 95] } ∧
    Stop envTickFails (mainTickLoopFire envTickFails 100
      (StartTicking (AddActor envTickFails 5 NewManager (Actor.object 1) [TickInterval 50]).1)
      (some 0)).1 =
      ((mainTickLoopFire envTickFails 100
        (StartTicking (AddActor envTickFails 5 NewManager (Actor.object 1) [TickInterval 50]).1)
        (some 0)).1, Outcome.returned none) ∧
    (AddActor envTickFails 200 (mainTickLoopFire envTickFails 100
      (StartTicking (AddActor envTickFails 5 NewManager (Actor.object 1) [TickInterval 50]).1)
      (some 0)).1 (Actor.object 2) []).2 = Outcome.returned (some Error.ErrManagerStopped) ∧
    (TickFrame (mainTickLoopFire envTickFails 100
      (StartTicking (AddActor envTickFails 5 NewManager (Actor.object 1) [TickInterval 50]).1)
      (some 0)).1).2 = Outcome.returned (some Error.ErrManagerStopped) := by
  decide

/-- C18, the code: the wait list `generateWaitList` builds for a receiver `m` is the same
for every receiver, and is read from the package manager `mgr`.  At a failing input: the
receiver holds actor 1 in its every-frame group and actor 2 in a 50ns group; with an
empty package manager its wait list has the shutdown case and the topology-changed
channel of `mgr` only (no manual-frame case, no ticker, no group), and with a package
manager holding an every-frame group and a timer group it lists the channels, the ticker
and the groups of that manager. -/
theorem generateWaitList_reads_package_manager :
    (∀ mgr m1 m2 : Manager, generateWaitList mgr m1 = generateWaitList mgr m2) ∧
    generateWaitList NewManager
        (StartTicking (AddActor Capabilities.none 1
          (AddActor Capabilities.none 0 NewManager (Actor.object 1) [TickEveryFrame]).1
          (Actor.object 2) [TickInterval 50]).1) =
      { cases := [SelectSource.ctxDone, SelectSource.tickGroupsUpdatedCh ManagerVar.packageMgr]
        tgs := [] } ∧
    generateWaitList
        (AddActor Capabilities.none 1
          (AddActor Capabilities.none 0 NewManager (Actor.object 7) [TickEveryFrame]).1
          (Actor.object 8) [TickInterval 30]).1
        (StartTicking (AddActor Capabilities.none 1
          (AddActor Capabilities.none 0 NewManager (Actor.object 1) [TickEveryFrame]).1
          (Actor.object 2) [TickInterval 50]).1) =
      { cases := [SelectSource.ctxDone, SelectSource.tickGroupsUpdatedCh ManagerVar.packageMgr,
          SelectSource.tickFrameCh ManagerVar.packageMgr, SelectSource.tickerC 0]
        tgs := [none, some 0] } := by
  refine ⟨fun _ _ _ => rfl, ?_, ?_⟩ <;> decide

theorem removeActorFromLists_channels (m : Manager) (a : Actor) :
    (removeActorFromLists m a).1.tickGroupsUpdatedCh = m.tickGroupsUpdatedCh := by
  unfold removeActorFromLists
  cases m.actors.get? a with
  | none => rfl
  | some ami =>
    dsimp only
    cases m.tickGroups.get? ami.tickGroup with
    | none => rfl
    | some tg =>
      dsimp only
      split <;> rfl

/-- C20, the code: `RemoveActor` never touches the topology-changed channel, whatever the
manager and the actor.  At a failing input: actor 1 is alone in the group of the interval
50 and the scheduler has taken the signal of its admission; `RemoveActor` returns nil and
removes the group and the interval-to-timer entry, but the channel stays empty: no
topology-changed signal is posted (`AddActor`, when it made the group, did post one).
The source has no call of `Stop` on a ticker either. -/
theorem RemoveActor_posts_no_signal :
    (∀ (env : Capabilities) (m : Manager) (a : Actor) (reason : Option Error),
      (RemoveActor env m a reason).1.tickGroupsUpdatedCh = m.tickGroupsUpdatedCh) ∧
    (AddActor envEndPlay 5 NewManager (Actor.object 1) [TickInterval 50]).1.tickGroupsUpdatedCh
      = { len := 1, cap := 1, closed := false } ∧
    recvTickGroupsUpdated (AddActor envEndPlay 5 NewManager (Actor.object 1) [TickInterval 50]).1
      = some { NewManager with
          actors := GoMap.mk [(Actor.object 1, { tickGroup := some 0 })]
          tickGroups := GoMap.mk [(some 0, { list := [Actor.object 1], lastTick := 5 })]
          tickGroupTickers := GoMap.mk [(50, some 0)]
          nextTicker := 1 } ∧
    RemoveActor envEndPlay
        { NewManager with
          actors := GoMap.mk [(Actor.object 1, { tickGroup := some 0 })]
          tickGroups := GoMap.mk [(some 0, { list := [Actor.object 1], lastTick := 5 })]
          tickGroupTickers := GoMap.mk [(50, some 0)]
          nextTicker := 1 } (Actor.object 1) none
      = ({ NewManager with
            nextTicker := 1
            events := [Event.EndPlay (Actor.object 1) none] }, Outcome.returned none) := by
  refine ⟨?_, by decide, by decide, by decide⟩
  intro env m a reason
  have h := removeActorFromLists_channels m a
  unfold RemoveActor
  rcases hr : removeActorFromLists m a with ⟨m1, _ | err⟩
  · rw [hr] at h
    simp only [stopActor_fst]
    exact h
  · rw [hr] at h
    exact h

/-! ## The registry invariant is kept -/

theorem GoMap.isNil_store {K V : Type} [DecidableEq K] (m : GoMap K V) (k : K) (v : V) :
    (m.store k v).isNil = m.isNil := by
  cases m <;> rfl

theorem GoMap.isNil_delete {K V : Type} [DecidableEq K] (m : GoMap K V) (k : K) :
    (m.delete k).isNil = m.isNil := by
  cases m <;> rfl

theorem assocDel_keys_nodup {K V : Type} [DecidableEq K] (l : List (K × V)) (k : K)
    (h : (l.map Prod.fst).Nodup) : ((assocDel l k).map Prod.fst).Nodup := by
  unfold assocDel
  exact List.Nodup.sublist (List.Sublist.map _ (List.filter_sublist l)) h

theorem assocDel_key_absent {K V : Type} [DecidableEq K] (l : List (K × V)) (k : K) :
    k ∉ (assocDel l k).map Prod.fst := by
  intro h
  obtain ⟨kv, hkv, hk⟩ := List.mem_map.mp h
  unfold assocDel at hkv
  have := (List.mem_filter.mp hkv).2
  simp [hk] at this

theorem assocSet_keys_nodup {K V : Type} [DecidableEq K] (l : List (K × V)) (k : K) (v : V)
    (h : (l.map Prod.fst).Nodup) : ((assocSet l k v).map Prod.fst).Nodup := by
  unfold assocSet
  rw [List.map_cons, List.nodup_cons]
  exact ⟨assocDel_key_absent l k, assocDel_keys_nodup l k h⟩

theorem GoMap.keys_nodup_delete {K V : Type} [DecidableEq K] (m : GoMap K V) (k : K)
    (h : (m.entries.map Prod.fst).Nodup) : ((m.delete k).entries.map Prod.fst).Nodup := by
  cases m with
  | nil => exact h
  | mk l => exact assocDel_keys_nodup l k h

theorem GoMap.keys_nodup_store {K V : Type} [DecidableEq K] (m : GoMap K V) (k : K) (v : V)
    (h : (m.entries.map Prod.fst).Nodup) : ((m.store k v).entries.map Prod.fst).Nodup := by
  cases m with
  | nil => exact h
  | mk l => exact assocSet_keys_nodup l k v h

theorem assocGet_of_mem_nodup {K V : Type} [DecidableEq K] (l : List (K × V)) (k : K) (v : V)
    (hnd : (l.map Prod.fst).Nodup) (hmem : (k, v) ∈ l) : assocGet l k = some v := by
  induction l with
  | nil => simp at hmem
  | cons kv rest ih =>
    obtain ⟨k1, v1⟩ := kv
    rw [List.map_cons, List.nodup_cons] at hnd
    rcases List.mem_cons.mp hmem with h | h
    · cases h
      simp [assocGet]
    · have hne : k1 ≠ k := by
        intro heq
        apply hnd.1
        rw [heq]
        exact List.mem_map.mpr ⟨(k, v), h, rfl⟩
      simp only [assocGet, hne, if_false]
      exact ih hnd.2 h

/-- The invariant reads five fields of the manager only. -/
theorem Manager.Inv.of_fields {m m2 : Manager} (h : m.Inv)
    (h1 : m2.actors = m.actors) (h2 : m2.tickGroups = m.tickGroups)
    (h3 : m2.tickGroupTickers = m.tickGroupTickers) (h4 : m2.nextTicker = m.nextTicker)
    (h5 : m2.stopping = true ∨ m2.stopping = m.stopping) : m2.Inv := by
  constructor
  · intro hs
    rw [h1, h2, h3]
    apply h.made
    rcases h5 with h5 | h5
    · rw [h5] at hs; cases hs
    · rw [← h5]; exact hs
  · rw [h1, h2]; exact h.registered_member
  · rw [h1, h2]; exact h.member_registered
  · rw [h2]; exact h.group_nonempty
  · rw [h3]; exact h.ticker_inj
  · rw [h2, h3, h4]; exact h.ticker_group
  · rw [h2, h3]; exact h.group_ticker
  · rw [h3]; exact h.ticker_keys
  · rw [h3]; exact h.zero_free

theorem Inv_NewManager : NewManager.Inv := by
  constructor <;> simp [NewManager, GoMap.get?, GoMap.entries, assocGet, GoMap.isNil]

/-- A manager whose registries were cleared by `Stop` satisfies the invariant. -/
theorem Inv_cleared (m : Manager) (ha : m.actors = GoMap.mk [])
    (hg : m.tickGroups = GoMap.nil) (ht : m.tickGroupTickers = GoMap.nil)
    (hs : m.stopping = true) : m.Inv := by
  constructor <;> simp [ha, hg, ht, hs, GoMap.get?, GoMap.entries, assocGet]

theorem Stop_registries (env : Capabilities) (m : Manager) :
    (Stop env m).1.stopping = true ∧
    (((Stop env m).1.actors = m.actors ∧ (Stop env m).1.tickGroups = m.tickGroups ∧
        (Stop env m).1.tickGroupTickers = m.tickGroupTickers ∧
        (Stop env m).1.nextTicker = m.nextTicker) ∨
      ((Stop env m).1.actors = GoMap.mk [] ∧ (Stop env m).1.tickGroups = GoMap.nil ∧
        (Stop env m).1.tickGroupTickers = GoMap.nil)) := by
  by_cases h0 : m.stopping = true
  · rw [Stop_stopping env m h0]
    exact ⟨h0, Or.inl ⟨rfl, rfl, rfl, rfl⟩⟩
  · unfold Stop
    simp only [h0, Bool.false_eq_true, if_false]
    split
    · exact ⟨rfl, Or.inl ⟨rfl, rfl, rfl, rfl⟩⟩
    · rename_i m2 hm2
      simp only [foldl_stopActor_mgrInfo]
      obtain ⟨c1, c2, c3, c4, _⟩ := closeChannels_fields
        { m2 with actors := GoMap.mk [], tickGroupTickers := GoMap.nil, tickGroups := GoMap.nil }
      have hm2s : m2.stopping = true := by
        split at hm2
        · unfold recvTickStopped at hm2
          split at hm2
          · cases hm2; rfl
          · split at hm2
            · cases hm2; rfl
            · split at hm2
              · cases hm2; rfl
              · simp at hm2
        · cases hm2; rfl
      refine ⟨?_, Or.inr ⟨?_, ?_, ?_⟩⟩
      · rw [c4]; exact hm2s
      · rw [c1]
      · rw [c2]
      · rw [c3]

theorem Inv_Stop (env : Capabilities) (m : Manager) (h : m.Inv) : (Stop env m).1.Inv := by
  obtain ⟨hs, hreg | hclr⟩ := Stop_registries env m
  · exact h.of_fields hreg.1 hreg.2.1 hreg.2.2.1 hreg.2.2.2 (Or.inl hs)
  · exact Inv_cleared _ hclr.1 hclr.2.1 hclr.2.2 hs

theorem Inv_StartTicking (m : Manager) (h : m.Inv) : (StartTicking m).Inv :=
  h.of_fields rfl rfl rfl rfl (Or.inr rfl)

theorem Inv_TickFrame (m : Manager) (h : m.Inv) : (TickFrame m).1.Inv := by
  unfold TickFrame
  split
  · exact h
  · split
    · exact h.of_fields rfl rfl rfl rfl (Or.inr rfl)
    · exact h
    · exact h

/-- The registries after an admission keep the invariant: the actor `a`, not registered,
is recorded with the ticker `t` and joins the group of `t` (made if there was none),
where `t` is nil, or a ticker the interval map already has, or the new ticker
`m.nextTicker`, recorded for an interval `d` that had none. -/
theorem Inv_admit (m m2 : Manager) (a : Actor) (t : TickerPtr) (G : actorList)
    (h : m.Inv) (hstop : m.stopping = false) (hnew : m.actors.get? a = none)
    (hA : m2.actors = m.actors.store a { tickGroup := t })
    (hG : m2.tickGroups = m.tickGroups.store t G)
    (hGl : G.list = match m.tickGroups.get? t with
      | some tg => tg.list.insert a
      | none => [a])
    (hT : (m2.tickGroupTickers = m.tickGroupTickers ∧ m2.nextTicker = m.nextTicker ∧
            (t = none ∨ ∃ d, m.tickGroupTickers.get? d = some t)) ∨
          (∃ d, d ≠ 0 ∧ m.tickGroupTickers.get? d = none ∧ t = some m.nextTicker ∧
            m2.tickGroupTickers = m.tickGroupTickers.store d (some m.nextTicker) ∧
            m2.nextTicker = m.nextTicker + 1)) :
    m2.Inv := by
  obtain ⟨nA, nG, nT⟩ := h.made hstop
  have getA_self : m2.actors.get? a = some { tickGroup := t } := by
    rw [hA]; exact GoMap.get?_store_self _ _ _ nA
  have getA_ne : ∀ b, b ≠ a → m2.actors.get? b = m.actors.get? b := by
    intro b hb
    rw [hA]; exact GoMap.get?_store_ne _ _ (Ne.symm hb)
  have getG_self : m2.tickGroups.get? t = some G := by
    rw [hG]; exact GoMap.get?_store_self _ _ _ nG
  have getG_ne : ∀ k, k ≠ t → m2.tickGroups.get? k = m.tickGroups.get? k := by
    intro k hk
    rw [hG]; exact GoMap.get?_store_ne _ _ (Ne.symm hk)
  have a_in_G : a ∈ G.list := by
    rw [hGl]
    cases m.tickGroups.get? t <;> simp
  have notmem : ∀ k tg, m.tickGroups.get? k = some tg → ∀ b ∈ tg.list, b ≠ a := by
    intro k tg hk b hb hba
    have := h.member_registered k tg hk b hb
    rw [hba, hnew] at this
    cases this
  have G_mem : ∀ b ∈ G.list,
      b = a ∨ ∃ tg, m.tickGroups.get? t = some tg ∧ b ∈ tg.list := by
    intro b hb
    rw [hGl] at hb
    cases hgt : m.tickGroups.get? t with
    | none =>
      rw [hgt] at hb
      left
      simpa using hb
    | some tg =>
      rw [hgt] at hb
      rcases List.mem_insert_iff.mp hb with hb | hb
      · exact Or.inl hb
      · exact Or.inr ⟨tg, rfl, hb⟩
  have G_isSome : ∀ k, (m.tickGroups.get? k).isSome = true →
      (m2.tickGroups.get? k).isSome = true := by
    intro k hk
    by_cases hkt : k = t
    · rw [hkt, getG_self]; rfl
    · rw [getG_ne k hkt]; exact hk
  constructor
  · intro _
    rw [hA, hG, GoMap.isNil_store, GoMap.isNil_store]
    refine ⟨nA, nG, ?_⟩
    rcases hT with ⟨e, _, _⟩ | ⟨d, _, _, _, e, _⟩
    · rw [e]; exact nT
    · rw [e, GoMap.isNil_store]; exact nT
  · intro b bmi hb
    by_cases hba : b = a
    · subst hba
      rw [getA_self] at hb
      cases hb
      exact ⟨G, getG_self, a_in_G⟩
    · rw [getA_ne b hba] at hb
      obtain ⟨tg, htg, hmem⟩ := h.registered_member b bmi hb
      by_cases hkt : bmi.tickGroup = t
      · rw [hkt] at htg ⊢
        refine ⟨G, getG_self, ?_⟩
        rw [hGl, htg]
        exact List.mem_insert_iff.mpr (Or.inr hmem)
      · exact ⟨tg, by rw [getG_ne _ hkt]; exact htg, hmem⟩
  · intro k tg hk b hb
    by_cases hkt : k = t
    · subst hkt
      rw [getG_self] at hk
      cases hk
      rcases G_mem b hb with hba | ⟨tg0, htg0, hb0⟩
      · rw [hba]; exact getA_self
      · rw [getA_ne b (notmem _ tg0 htg0 b hb0)]
        exact h.member_registered _ tg0 htg0 b hb0
    · rw [getG_ne k hkt] at hk
      rw [getA_ne b (notmem k tg hk b hb)]
      exact h.member_registered k tg hk b hb
  · intro k tg hk
    by_cases hkt : k = t
    · subst hkt
      rw [getG_self] at hk
      cases hk
      exact List.ne_nil_of_mem a_in_G
    · rw [getG_ne k hkt] at hk
      exact h.group_nonempty k tg hk
  · intro d1 d2 t0 h1 h2
    rcases hT with ⟨e, _, _⟩ | ⟨d, _, hdn, ht, e, _⟩
    · rw [e] at h1 h2
      exact h.ticker_inj d1 d2 t0 h1 h2
    · rw [e] at h1 h2
      by_cases hd1 : d1 = d
      · by_cases hd2 : d2 = d
        · rw [hd1, hd2]
        · exfalso
          rw [hd1, GoMap.get?_store_self _ _ _ nT] at h1
          rw [GoMap.get?_store_ne _ _ (Ne.symm hd2)] at h2
          cases h1
          obtain ⟨n, hn, hlt, _⟩ := h.ticker_group d2 _ h2
          cases hn
          exact Nat.lt_irrefl _ hlt
      · by_cases hd2 : d2 = d
        · exfalso
          rw [hd2, GoMap.get?_store_self _ _ _ nT] at h2
          rw [GoMap.get?_store_ne _ _ (Ne.symm hd1)] at h1
          cases h2
          obtain ⟨n, hn, hlt, _⟩ := h.ticker_group d1 _ h1
          cases hn
          exact Nat.lt_irrefl _ hlt
        · rw [GoMap.get?_store_ne _ _ (Ne.symm hd1)] at h1
          rw [GoMap.get?_store_ne _ _ (Ne.symm hd2)] at h2
          exact h.ticker_inj d1 d2 t0 h1 h2
  · intro d0 t0 h0
    rcases hT with ⟨e, en, _⟩ | ⟨d, _, hdn, ht, e, en⟩
    · rw [e] at h0
      obtain ⟨n, hn, hlt, hsome⟩ := h.ticker_group d0 t0 h0
      exact ⟨n, hn, by rw [en]; exact hlt, G_isSome t0 hsome⟩
    · rw [e] at h0
      by_cases hd0 : d0 = d
      · rw [hd0, GoMap.get?_store_self _ _ _ nT] at h0
        cases h0
        refine ⟨m.nextTicker, rfl, by rw [en]; exact Nat.lt_succ_self _, ?_⟩
        rw [← ht, getG_self]; rfl
      · rw [GoMap.get?_store_ne _ _ (Ne.symm hd0)] at h0
        obtain ⟨n, hn, hlt, hsome⟩ := h.ticker_group d0 t0 h0
        exact ⟨n, hn, by rw [en]; exact Nat.lt_succ_of_lt hlt, G_isSome t0 hsome⟩
  · intro n tg hk
    by_cases hkt : some n = t
    · rcases hT with ⟨e, _, ht⟩ | ⟨d, _, _, _, e, _⟩
      · rcases ht with ht | ⟨d, hd⟩
        · rw [ht] at hkt; cases hkt
        · exact ⟨d, by rw [e, hkt]; exact hd⟩
      · refine ⟨d, ?_⟩
        rw [e, hkt, GoMap.get?_store_self _ _ _ nT]
        rename_i ht _
        rw [ht]
    · rw [getG_ne _ hkt] at hk
      obtain ⟨d0, hd0⟩ := h.group_ticker n tg hk
      rcases hT with ⟨e, _, _⟩ | ⟨d, _, hdn, _, e, _⟩
      · exact ⟨d0, by rw [e]; exact hd0⟩
      · refine ⟨d0, ?_⟩
        have hne : d ≠ d0 := by
          intro heq
          rw [heq, hd0] at hdn
          cases hdn
        rw [e, GoMap.get?_store_ne _ _ hne]
        exact hd0
  · rcases hT with ⟨e, _, _⟩ | ⟨d, _, _, _, e, _⟩
    · rw [e]; exact h.ticker_keys
    · rw [e]; exact GoMap.keys_nodup_store _ _ _ h.ticker_keys
  · rcases hT with ⟨e, _, _⟩ | ⟨d, hd, _, _, e, _⟩
    · rw [e]; exact h.zero_free
    · rw [e, GoMap.get?_store_ne _ _ hd]; exact h.zero_free

theorem signalUpdated_registries (m : Manager) (u : Bool) :
    (signalUpdated m u).1.actors = m.actors ∧ (signalUpdated m u).1.tickGroups = m.tickGroups ∧
    (signalUpdated m u).1.tickGroupTickers = m.tickGroupTickers ∧
    (signalUpdated m u).1.nextTicker = m.nextTicker ∧
    (signalUpdated m u).1.stopping = m.stopping := by
  unfold signalUpdated
  cases u with
  | false => simp
  | true =>
    simp only [if_true]
    cases m.tickGroupsUpdatedCh.send <;> simp

theorem joinTickGroup_registries (now : Time) (m1 : Manager) (a : Actor) (t : TickerPtr)
    (u : Bool) (nA : m1.actors.isNil = false) (nG : m1.tickGroups.isNil = false) :
    ∃ G : actorList,
      (joinTickGroup now m1 a t u).1.actors = m1.actors.store a { tickGroup := t } ∧
      (joinTickGroup now m1 a t u).1.tickGroups = m1.tickGroups.store t G ∧
      (G.list = match m1.tickGroups.get? t with
        | some tg => tg.list.insert a
        | none => [a]) ∧
      (joinTickGroup now m1 a t u).1.tickGroupTickers = m1.tickGroupTickers ∧
      (joinTickGroup now m1 a t u).1.nextTicker = m1.nextTicker := by
  unfold joinTickGroup
  simp only [nA, Bool.false_eq_true, if_false]
  cases hgt : m1.tickGroups.get? t with
  | some tg =>
    dsimp only
    obtain ⟨s1, s2, s3, s4, _⟩ := signalUpdated_registries
      { m1 with
          actors := m1.actors.store a { tickGroup := t }
          tickGroups := m1.tickGroups.store t { tg with list := tg.list.insert a } } u
    exact ⟨{ tg with list := tg.list.insert a }, s1, s2, rfl, s3, s4⟩
  | none =>
    dsimp only
    simp only [nG, Bool.false_eq_true, if_false]
    obtain ⟨s1, s2, s3, s4, _⟩ := signalUpdated_registries
      { m1 with
          actors := m1.actors.store a { tickGroup := t }
          tickGroups := m1.tickGroups.store t { list := [a], lastTick := now } } true
    exact ⟨{ list := [a], lastTick := now }, s1, s2, rfl, s3, s4⟩

theorem Inv_addActorLocked (now : Time) (m : Manager) (a : Actor) (d : Duration)
    (h : m.Inv) (hstop : m.stopping = false) (hnew : m.actors.get? a = none) :
    (addActorLocked now m a d).1.Inv := by
  obtain ⟨nA, nG, nT⟩ := h.made hstop
  unfold addActorLocked
  by_cases hd : d = 0
  · have hp : pickTicker m d = Sum.inl (m, none, false) := by simp [pickTicker, hd]
    simp only [hp]
    obtain ⟨G, j1, j2, j3, j4, j5⟩ := joinTickGroup_registries now m a none false nA nG
    exact Inv_admit m _ a none G h hstop hnew j1 j2 j3 (Or.inl ⟨j4, j5, Or.inl rfl⟩)
  · cases ht : m.tickGroupTickers.get? d with
    | some t =>
      have hp : pickTicker m d = Sum.inl (m, t, false) := by simp [pickTicker, hd, ht]
      simp only [hp]
      obtain ⟨G, j1, j2, j3, j4, j5⟩ := joinTickGroup_registries now m a t false nA nG
      exact Inv_admit m _ a t G h hstop hnew j1 j2 j3 (Or.inl ⟨j4, j5, Or.inr ⟨d, ht⟩⟩)
    | none =>
      by_cases hle : d ≤ 0
      · have hp : pickTicker m d = Sum.inr Panic.nonPositiveTickerInterval := by
          simp [pickTicker, hd, ht, hle]
        simp only [hp]
        exact h
      · have hp : pickTicker m d = Sum.inl ({ m with
            tickGroupTickers := m.tickGroupTickers.store d (some m.nextTicker)
            nextTicker := m.nextTicker + 1 }, some m.nextTicker, true) := by
          simp [pickTicker, hd, ht, hle, nT]
        simp only [hp]
        obtain ⟨G, j1, j2, j3, j4, j5⟩ := joinTickGroup_registries now
          { m with
            tickGroupTickers := m.tickGroupTickers.store d (some m.nextTicker)
            nextTicker := m.nextTicker + 1 } a (some m.nextTicker) true nA nG
        exact Inv_admit m _ a (some m.nextTicker) G h hstop hnew j1 j2 j3
          (Or.inr ⟨d, hd, ht, rfl, j4, j5⟩)

theorem Inv_AddActor (env : Capabilities) (now : Time) (m : Manager) (a : Actor)
    (opts : List ActorOption) (h : m.Inv) : (AddActor env now m a opts).1.Inv := by
  unfold AddActor
  by_cases hstop : m.stopping = true
  · simp only [hstop, if_true]
    exact h
  · have hstop2 : m.stopping = false := by simpa using hstop
    simp only [hstop, if_false]
    cases hget : m.actors.get? a with
    | some ami =>
      simp only [Option.isSome_some, if_true]
      exact h
    | none =>
      simp only [Option.isSome_none, Bool.false_eq_true, if_false]
      rcases hb : BeginPlay env a with ⟨evs, _ | err⟩
      · dsimp only
        exact Inv_addActorLocked now _ a _
          (h.of_fields rfl rfl rfl rfl (Or.inr hstop2.symm)) rfl hget
      · dsimp only
        exact h.of_fields rfl rfl rfl rfl (Or.inr hstop2.symm)

theorem GoMap.get?_delete_some {K V : Type} [DecidableEq K] (m : GoMap K V) {k d : K} {v : V}
    (h : (m.delete k).get? d = some v) : d ≠ k ∧ m.get? d = some v := by
  by_cases hd : d = k
  · rw [hd, GoMap.get?_delete_self] at h
    cases h
  · rw [GoMap.get?_delete_ne _ (Ne.symm hd)] at h
    exact ⟨hd, h⟩

/-- Under the invariant, the interval `removeActorFromLists` finds for the ticker of a
group is the one recorded for it; for the every-frame group it is zero, which the map
does not hold. -/
theorem Manager.Inv.found_interval {m : Manager} (h : m.Inv) (t : TickerPtr)
    (hg : (m.tickGroups.get? t).isSome = true) :
    (m.tickGroupTickers.get?
        (match m.tickGroupTickers.entries.find? (fun kv => decide (kv.2 = t)) with
          | some kv => kv.1
          | none => 0) = some t) ∨
    (t = none ∧ m.tickGroupTickers.get?
        (match m.tickGroupTickers.entries.find? (fun kv => decide (kv.2 = t)) with
          | some kv => kv.1
          | none => 0) = none) := by
  cases hf : m.tickGroupTickers.entries.find? (fun kv => decide (kv.2 = t)) with
  | some kv =>
    left
    have hmem := List.mem_of_find?_eq_some hf
    have hp := List.find?_some hf
    simp only [decide_eq_true_eq] at hp
    have := assocGet_of_mem_nodup _ kv.1 kv.2 h.ticker_keys hmem
    rw [hp] at this
    exact this
  | none =>
    right
    have hall : ∀ d, m.tickGroupTickers.get? d ≠ some t := by
      intro d hd
      have hmem := assocGet_mem _ _ _ hd
      have := List.find?_eq_none.mp hf (d, t) hmem
      simp at this
    cases t with
    | none => exact ⟨rfl, h.zero_free⟩
    | some n =>
      exfalso
      obtain ⟨tg, htg⟩ := Option.isSome_iff_exists.mp hg
      obtain ⟨d, hd⟩ := h.group_ticker n tg htg
      exact hall d hd

/-- The registries after the removal of an actor that was not the last member of its
group keep the invariant. -/
theorem Inv_release_keep (m m2 : Manager) (a : Actor) (ami : actorMgrInfo) (tg : actorList)
    (h : m.Inv) (hreg : m.actors.get? a = some ami)
    (hg : m.tickGroups.get? ami.tickGroup = some tg)
    (hL : tg.list.filter (fun x => decide (x ≠ a)) ≠ [])
    (hA : m2.actors = m.actors.delete a)
    (hG : m2.tickGroups = m.tickGroups.store ami.tickGroup
      { tg with list := tg.list.filter (fun x => decide (x ≠ a)) })
    (hT : m2.tickGroupTickers = m.tickGroupTickers) (hN : m2.nextTicker = m.nextTicker)
    (hS : m2.stopping = m.stopping) : m2.Inv := by
  have nG : m.tickGroups.isNil = false := GoMap.isNil_of_get? hg
  have getG_self : m2.tickGroups.get? ami.tickGroup
      = some { tg with list := tg.list.filter (fun x => decide (x ≠ a)) } := by
    rw [hG]; exact GoMap.get?_store_self _ _ _ nG
  have getG_ne : ∀ k, k ≠ ami.tickGroup → m2.tickGroups.get? k = m.tickGroups.get? k := by
    intro k hk
    rw [hG]; exact GoMap.get?_store_ne _ _ (Ne.symm hk)
  have getA : ∀ b bmi, m2.actors.get? b = some bmi → b ≠ a ∧ m.actors.get? b = some bmi := by
    intro b bmi hb
    rw [hA] at hb
    exact GoMap.get?_delete_some _ hb
  have getA_ne : ∀ b, b ≠ a → m2.actors.get? b = m.actors.get? b := by
    intro b hb
    rw [hA]; exact GoMap.get?_delete_ne _ (Ne.symm hb)
  have G_isSome : ∀ k, (m.tickGroups.get? k).isSome = true →
      (m2.tickGroups.get? k).isSome = true := by
    intro k hk
    by_cases hkt : k = ami.tickGroup
    · rw [hkt, getG_self]; rfl
    · rw [getG_ne k hkt]; exact hk
  constructor
  · intro hs
    rw [hS] at hs
    obtain ⟨nA, _, nT⟩ := h.made hs
    rw [hA, hG, hT, GoMap.isNil_delete, GoMap.isNil_store]
    exact ⟨nA, nG, nT⟩
  · intro b bmi hb
    obtain ⟨hba, hbm⟩ := getA b bmi hb
    obtain ⟨tgb, htgb, hmem⟩ := h.registered_member b bmi hbm
    by_cases hkt : bmi.tickGroup = ami.tickGroup
    · rw [hkt] at htgb ⊢
      rw [hg] at htgb
      cases htgb
      refine ⟨_, getG_self, ?_⟩
      exact List.mem_filter.mpr ⟨hmem, by simpa using hba⟩
    · exact ⟨tgb, by rw [getG_ne _ hkt]; exact htgb, hmem⟩
  · intro k tg2 hk b hb
    by_cases hkt : k = ami.tickGroup
    · subst hkt
      rw [getG_self] at hk
      cases hk
      obtain ⟨hb1, hb2⟩ := List.mem_filter.mp hb
      have hba : b ≠ a := by simpa using hb2
      rw [getA_ne b hba]
      exact h.member_registered _ tg hg b hb1
    · rw [getG_ne k hkt] at hk
      have hbk := h.member_registered k tg2 hk b hb
      have hba : b ≠ a := by
        intro heq
        rw [heq, hreg] at hbk
        cases hbk
        exact hkt rfl
      rw [getA_ne b hba]
      exact hbk
  · intro k tg2 hk
    by_cases hkt : k = ami.tickGroup
    · subst hkt
      rw [getG_self] at hk
      cases hk
      exact hL
    · rw [getG_ne k hkt] at hk
      exact h.group_nonempty k tg2 hk
  · rw [hT]; exact h.ticker_inj
  · intro d0 t0 h0
    rw [hT] at h0
    obtain ⟨n, hn, hlt, hsome⟩ := h.ticker_group d0 t0 h0
    exact ⟨n, hn, by rw [hN]; exact hlt, G_isSome t0 hsome⟩
  · intro n tg2 hk
    rw [hT]
    by_cases hkt : some n = ami.tickGroup
    · rw [hkt]
      rw [← hkt] at hg
      obtain ⟨d, hd⟩ := h.group_ticker n tg hg
      exact ⟨d, by rw [← hkt]; exact hd⟩
    · rw [getG_ne _ hkt] at hk
      exact h.group_ticker n tg2 hk
  · rw [hT]; exact h.ticker_keys
  · rw [hT]; exact h.zero_free

/-- The registries after the removal of the last member of a group keep the invariant:
the group is deleted together with the interval found for its ticker. -/
theorem Inv_release_drop (m m2 : Manager) (a : Actor) (ami : actorMgrInfo) (tg : actorList)
    (intv : Duration)
    (h : m.Inv) (hreg : m.actors.get? a = some ami)
    (hg : m.tickGroups.get? ami.tickGroup = some tg)
    (hL : tg.list.filter (fun x => decide (x ≠ a)) = [])
    (hI : m.tickGroupTickers.get? intv = some ami.tickGroup ∨
      (ami.tickGroup = none ∧ m.tickGroupTickers.get? intv = none))
    (hA : m2.actors = m.actors.delete a)
    (hG : m2.tickGroups = (m.tickGroups.store ami.tickGroup
      { tg with list := tg.list.filter (fun x => decide (x ≠ a)) }).delete ami.tickGroup)
    (hT : m2.tickGroupTickers = m.tickGroupTickers.delete intv)
    (hN : m2.nextTicker = m.nextTicker)
    (hS : m2.stopping = m.stopping) : m2.Inv := by
  have getG : ∀ k tg2, m2.tickGroups.get? k = some tg2 →
      k ≠ ami.tickGroup ∧ m.tickGroups.get? k = some tg2 := by
    intro k tg2 hk
    rw [hG] at hk
    obtain ⟨hne, hk2⟩ := GoMap.get?_delete_some _ hk
    rw [GoMap.get?_store_ne _ _ (Ne.symm hne)] at hk2
    exact ⟨hne, hk2⟩
  have getG_ne : ∀ k, k ≠ ami.tickGroup → m2.tickGroups.get? k = m.tickGroups.get? k := by
    intro k hk
    rw [hG, GoMap.get?_delete_ne _ (Ne.symm hk), GoMap.get?_store_ne _ _ (Ne.symm hk)]
  have getA : ∀ b bmi, m2.actors.get? b = some bmi → b ≠ a ∧ m.actors.get? b = some bmi := by
    intro b bmi hb
    rw [hA] at hb
    exact GoMap.get?_delete_some _ hb
  have getA_ne : ∀ b, b ≠ a → m2.actors.get? b = m.actors.get? b := by
    intro b hb
    rw [hA]; exact GoMap.get?_delete_ne _ (Ne.symm hb)
  have getT : ∀ d t0, m2.tickGroupTickers.get? d = some t0 →
      d ≠ intv ∧ m.tickGroupTickers.get? d = some t0 := by
    intro d t0 hd
    rw [hT] at hd
    exact GoMap.get?_delete_some _ hd
  have only_a : ∀ b ∈ tg.list, b = a := by
    intro b hb
    by_contra hba
    have : b ∈ tg.list.filter (fun x => decide (x ≠ a)) :=
      List.mem_filter.mpr ⟨hb, by simpa using hba⟩
    rw [hL] at this
    simp at this
  constructor
  · intro hs
    rw [hS] at hs
    obtain ⟨nA, nG, nT⟩ := h.made hs
    rw [hA, hG, hT, GoMap.isNil_delete, GoMap.isNil_delete, GoMap.isNil_store,
      GoMap.isNil_delete]
    exact ⟨nA, nG, nT⟩
  · intro b bmi hb
    obtain ⟨hba, hbm⟩ := getA b bmi hb
    obtain ⟨tgb, htgb, hmem⟩ := h.registered_member b bmi hbm
    by_cases hkt : bmi.tickGroup = ami.tickGroup
    · exfalso
      rw [hkt, hg] at htgb
      cases htgb
      exact hba (only_a b hmem)
    · exact ⟨tgb, by rw [getG_ne _ hkt]; exact htgb, hmem⟩
  · intro k tg2 hk b hb
    obtain ⟨hkt, hk2⟩ := getG k tg2 hk
    have hbk := h.member_registered k tg2 hk2 b hb
    have hba : b ≠ a := by
      intro heq
      rw [heq, hreg] at hbk
      cases hbk
      exact hkt rfl
    rw [getA_ne b hba]
    exact hbk
  · intro k tg2 hk
    exact h.group_nonempty k tg2 (getG k tg2 hk).2
  · intro d1 d2 t0 h1 h2
    exact h.ticker_inj d1 d2 t0 (getT d1 t0 h1).2 (getT d2 t0 h2).2
  · intro d0 t0 h0
    obtain ⟨hne, h0m⟩ := getT d0 t0 h0
    obtain ⟨n, hn, hlt, hsome⟩ := h.ticker_group d0 t0 h0m
    refine ⟨n, hn, by rw [hN]; exact hlt, ?_⟩
    have hkt : t0 ≠ ami.tickGroup := by
      intro heq
      rcases hI with hI | ⟨hnone, _⟩
      · rw [← heq] at hI
        exact hne (h.ticker_inj d0 intv t0 h0m hI)
      · rw [heq, hnone] at hn
        cases hn
    rw [getG_ne t0 hkt]
    exact hsome
  · intro n tg2 hk
    obtain ⟨hkt, hk2⟩ := getG _ tg2 hk
    obtain ⟨d0, hd0⟩ := h.group_ticker n tg2 hk2
    refine ⟨d0, ?_⟩
    have hne : intv ≠ d0 := by
      intro heq
      rcases hI with hI | ⟨_, hI⟩
      · rw [heq, hd0] at hI
        exact hkt (Option.some.inj hI)
      · rw [heq, hd0] at hI
        cases hI
    rw [hT, GoMap.get?_delete_ne _ hne]
    exact hd0
  · rw [hT]; exact GoMap.keys_nodup_delete _ _ h.ticker_keys
  · rw [hT]
    by_cases h0 : intv = 0
    · rw [h0]; exact GoMap.get?_delete_self _ _
    · rw [GoMap.get?_delete_ne _ h0]; exact h.zero_free

theorem Inv_removeActorFromLists (m : Manager) (a : Actor) (h : m.Inv) :
    (removeActorFromLists m a).1.Inv := by
  cases hreg : m.actors.get? a with
  | none =>
    rw [removeActorFromLists_absent m a hreg]
    exact h
  | some ami =>
    obtain ⟨tg, hg, _⟩ := h.registered_member a ami hreg
    by_cases hL : tg.list.filter (fun x => decide (x ≠ a)) = []
    · have hlen : (tg.list.filter (fun x => decide (x ≠ a))).length = 0 := by
        rw [hL]; rfl
      have hI := h.found_interval ami.tickGroup (by rw [hg]; rfl)
      have hI2 : m.tickGroupTickers.get?
            (match m.tickGroupTickers.entries.find?
                (fun kv => decide (kv.2 = ami.tickGroup)) with
              | some kv => kv.1
              | none => 0) = some ami.tickGroup ∨
          (ami.tickGroup = none ∧ m.tickGroupTickers.get?
            (match m.tickGroupTickers.entries.find?
                (fun kv => decide (kv.2 = ami.tickGroup)) with
              | some kv => kv.1
              | none => 0) = none) := hI
      unfold removeActorFromLists
      simp only [hreg, hg, hlen, if_true]
      exact Inv_release_drop m _ a ami tg _ h hreg hg hL hI2 rfl rfl rfl rfl rfl
    · have hlen : ¬ (tg.list.filter (fun x => decide (x ≠ a))).length = 0 := by
        rw [List.length_eq_zero]; exact hL
      unfold removeActorFromLists
      simp only [hreg, hg, hlen, if_false]
      exact Inv_release_keep m _ a ami tg h hreg hg hL rfl rfl rfl rfl rfl

theorem Inv_RemoveActor (env : Capabilities) (m : Manager) (a : Actor)
    (reason : Option Error) (h : m.Inv) : (RemoveActor env m a reason).1.Inv := by
  have hl := Inv_removeActorFromLists m a h
  unfold RemoveActor
  rcases hr : removeActorFromLists m a with ⟨m1, _ | err⟩
  · rw [hr] at hl
    simp only [stopActor_fst]
    exact hl.of_fields rfl rfl rfl rfl (Or.inr rfl)
  · rw [hr] at hl
    exact hl

theorem Inv_of_Reachable (env : Capabilities) (m : Manager) (hr : Reachable env m) :
    m.Inv := by
  induction hr with
  | new => exact Inv_NewManager
  | start _ ih => exact Inv_StartTicking _ ih
  | add now a opts _ ih => exact Inv_AddActor env now _ a opts ih
  | remove a reason _ ih => exact Inv_RemoveActor env _ a reason ih
  | tickFrame _ ih => exact Inv_TickFrame _ ih
  | stop _ ih => exact Inv_Stop env _ ih

/-- C19: in every state a manager reaches from `NewManager` by calls of `AddActor` (any
actor and options), `RemoveActor` and `Stop` (and `StartTicking`, `TickFrame`), however
each call ends: every registered actor is a member of the group keyed by the ticker
recorded for it, and of no other group; every member of a group is a registered actor;
no group has an empty member set; the interval-to-timer map is injective; and the
timers of that map are exactly the non-nil keys of the tick groups. -/
theorem reachable_registry_invariant (env : Capabilities) (m : Manager)
    (hr : Reachable env m) :
    (∀ a ami, m.actors.get? a = some ami →
      (∃ tg, m.tickGroups.get? ami.tickGroup = some tg ∧ a ∈ tg.list) ∧
      ∀ k, a ∈ m.members k → k = ami.tickGroup) ∧
    (∀ k, ∀ b ∈ m.members k, (m.actors.get? b).isSome = true) ∧
    (∀ k tg, m.tickGroups.get? k = some tg → tg.list ≠ []) ∧
    (∀ d1 d2 t, m.tickGroupTickers.get? d1 = some t →
      m.tickGroupTickers.get? d2 = some t → d1 = d2) ∧
    (∀ t : TickerPtr, (∃ d, m.tickGroupTickers.get? d = some t) ↔
      (t ≠ none ∧ (m.tickGroups.get? t).isSome = true)) := by
  have h := Inv_of_Reachable env m hr
  have hmem : ∀ k, ∀ b ∈ m.members k, m.actors.get? b = some { tickGroup := k } := by
    intro k b hb
    unfold Manager.members at hb
    cases hk : m.tickGroups.get? k with
    | none => simp [hk] at hb
    | some tg =>
      simp only [hk] at hb
      exact h.member_registered k tg hk b hb
  refine ⟨?_, ?_, h.group_nonempty, h.ticker_inj, ?_⟩
  · intro a ami ha
    refine ⟨h.registered_member a ami ha, ?_⟩
    intro k hk
    have := hmem k a hk
    rw [ha] at this
    cases this
    rfl
  · intro k b hb
    rw [hmem k b hb]
    rfl
  · intro t
    constructor
    · rintro ⟨d, hd⟩
      obtain ⟨n, hn, _, hsome⟩ := h.ticker_group d t hd
      exact ⟨by rw [hn]; simp, hsome⟩
    · rintro ⟨hne, hsome⟩
      cases t with
      | none => exact absurd rfl hne
      | some n =>
        obtain ⟨tg, htg⟩ := Option.isSome_iff_exists.mp hsome
        exact h.group_ticker n tg htg

/-- Witness of C19: actors 1 and 2 are added on the interval 50 and actor 1 is removed;
actor 2 is a member of the group of its ticker. -/
theorem reachable_registry_invariant_witness :
    ∃ tg, (RemoveActor envEndPlay (AddActor envEndPlay 1
        (AddActor envEndPlay 0 NewManager (Actor.object 1) [TickInterval 50]).1
        (Actor.object 2) [TickInterval 50]).1 (Actor.object 1) none).1.tickGroups.get?
          (some 0) = some tg ∧ Actor.object 2 ∈ tg.list :=
  ((reachable_registry_invariant envEndPlay _
    (Reachable.remove (Actor.object 1) none
      (Reachable.add 1 (Actor.object 2) [TickInterval 50]
        (Reachable.add 0 (Actor.object 1) [TickInterval 50] Reachable.new)))).1
    (Actor.object 2) { tickGroup := some 0 } (by decide)).1

/-! ## The wait list -/

theorem generateWaitList_fold (l : List (TickerPtr × actorList)) (wl : waitList) :
    l.foldl
      (fun wl kv =>
        match kv.1 with
        | none => wl
        | some t =>
          { cases := wl.cases ++ [SelectSource.tickerC t], tgs := wl.tgs ++ [some t] })
      wl =
    { cases := wl.cases ++ (timedTickers l).map SelectSource.tickerC
      tgs := wl.tgs ++ (timedTickers l).map some } := by
  induction l generalizing wl with
  | nil => simp [timedTickers]
  | cons kv rest ih =>
    obtain ⟨k, v⟩ := kv
    cases k with
    | none => simpa [timedTickers, List.filterMap_cons] using ih wl
    | some t =>
      rw [List.foldl_cons, ih]
      simp [timedTickers, List.filterMap_cons]

/-- The wait list in closed form. -/
theorem generateWaitList_eq (mgr m : Manager) :
    generateWaitList mgr m =
      { cases := [SelectSource.ctxDone, SelectSource.tickGroupsUpdatedCh ManagerVar.packageMgr]
          ++ ((if (mgr.tickGroups.get? none).isSome then [none] else [])
            ++ (timedTickers mgr.tickGroups.entries).map some).map waitSource
        tgs := (if (mgr.tickGroups.get? none).isSome then [none] else [])
          ++ (timedTickers mgr.tickGroups.entries).map some } := by
  unfold generateWaitList
  rw [generateWaitList_fold]
  cases mgr.tickGroups.get? none <;>
    simp [waitSource, List.map_map, Function.comp_def]

theorem count_waitSource (l : List TickerPtr) (t : Nat) :
    (l.map waitSource).count (SelectSource.tickerC t) = l.count (some t) := by
  induction l with
  | nil => rfl
  | cons k rest ih =>
    cases k with
    | none => simp [waitSource, List.count_cons, ih]
    | some n =>
      by_cases hn : n = t
      · subst hn
        simp [waitSource, List.count_cons, ih]
      · have hne : ¬ t = n := fun h => hn h.symm
        simp [waitSource, List.count_cons, ih, hn, hne]

theorem count_timedTickers (l : List (TickerPtr × actorList)) (t : Nat) :
    ((timedTickers l).map some).count (some t) = (l.map Prod.fst).count (some t) := by
  induction l with
  | nil => rfl
  | cons kv rest ih =>
    obtain ⟨k, v⟩ := kv
    cases k with
    | none => simpa [timedTickers, List.filterMap_cons, List.count_cons] using ih
    | some n =>
      simp only [timedTickers, List.filterMap_cons, List.map_cons, List.count_cons] at ih ⊢
      rw [ih]

theorem assocGet_isSome_iff {K V : Type} [DecidableEq K] (l : List (K × V)) (k : K) :
    (assocGet l k).isSome = true ↔ k ∈ l.map Prod.fst := by
  induction l with
  | nil => simp [assocGet]
  | cons kv rest ih =>
    obtain ⟨k1, v⟩ := kv
    by_cases h : k1 = k
    · subst h
      simp [assocGet]
    · have h2 : ¬ k = k1 := fun e => h e.symm
      simp [assocGet, h, h2, ih]

theorem count_eq_one_of_nodup {α : Type} [BEq α] [LawfulBEq α] (l : List α) (a : α)
    (hnd : l.Nodup) (hmem : a ∈ l) : l.count a = 1 := by
  induction l with
  | nil => simp at hmem
  | cons x xs ih =>
    obtain ⟨hx, hxs⟩ := List.nodup_cons.mp hnd
    rw [List.count_cons]
    by_cases hax : a = x
    · subst hax
      rw [List.count_eq_zero.mpr hx]
      simp
    · have hin : a ∈ xs := by
        rcases List.mem_cons.mp hmem with h | h
        · exact absurd h hax
        · exact h
      have hne : (x == a) = false := by
        simp only [beq_eq_false_iff_ne, ne_eq]
        exact fun h => hax h.symm
      rw [ih hxs hin, hne]
      rfl

/-- C21: for every tick-group registry, the wait list `generateWaitList` builds has the
shutdown source as case 0 and the topology-changed source as case 1, followed by the
sources of its groups `tgs` in the same order (`cases = [case 0, case 1] ++ sources of
tgs`); `tgs` is the every-frame group, present exactly when the registry has a nil-keyed
group, followed by the groups with a ticker; the manual-frame source is among the cases
if and only if an every-frame group exists; a ticker source occurs as often as its
ticker is a key of the registry, that is once per group with a ticker when keys are
distinct, as in a Go map; `len(cases) = len(tgs) + 2`; and for every chosen index from 2
up to the number of cases, `tgs[chosen-2]` is in bounds and is the group whose source is
`cases[chosen]`. -/
theorem generateWaitList_layout (mgr m : Manager) :
    (generateWaitList mgr m).cases =
      [SelectSource.ctxDone, SelectSource.tickGroupsUpdatedCh ManagerVar.packageMgr]
        ++ (generateWaitList mgr m).tgs.map waitSource ∧
    (generateWaitList mgr m).tgs =
      (if (mgr.tickGroups.get? none).isSome then [none] else [])
        ++ (timedTickers mgr.tickGroups.entries).map some ∧
    (SelectSource.tickFrameCh ManagerVar.packageMgr ∈ (generateWaitList mgr m).cases ↔
      (mgr.tickGroups.get? none).isSome = true) ∧
    (∀ t, (generateWaitList mgr m).cases.count (SelectSource.tickerC t)
      = mgr.tickGroups.keys.count (some t)) ∧
    (mgr.tickGroups.keys.Nodup →
      ∀ t, (generateWaitList mgr m).cases.count (SelectSource.tickerC t)
        = if (mgr.tickGroups.get? (some t)).isSome then 1 else 0) ∧
    (generateWaitList mgr m).cases.length = (generateWaitList mgr m).tgs.length + 2 ∧
    (∀ chosen, 2 ≤ chosen → chosen < (generateWaitList mgr m).cases.length →
      ∃ k, (generateWaitList mgr m).tgs[chosen - 2]? = some k ∧
        (generateWaitList mgr m).cases[chosen]? = some (waitSource k)) := by
  have hcases : (generateWaitList mgr m).cases =
      [SelectSource.ctxDone, SelectSource.tickGroupsUpdatedCh ManagerVar.packageMgr]
        ++ (generateWaitList mgr m).tgs.map waitSource := by
    rw [generateWaitList_eq]
  have htgs : (generateWaitList mgr m).tgs =
      (if (mgr.tickGroups.get? none).isSome then [none] else [])
        ++ (timedTickers mgr.tickGroups.entries).map some := by
    rw [generateWaitList_eq]
  have hcount : ∀ t, (generateWaitList mgr m).cases.count (SelectSource.tickerC t)
      = mgr.tickGroups.keys.count (some t) := by
    intro t
    rw [hcases, List.count_append, count_waitSource, htgs, List.count_append,
      count_timedTickers]
    have h0 : ([SelectSource.ctxDone,
        SelectSource.tickGroupsUpdatedCh ManagerVar.packageMgr]).count
          (SelectSource.tickerC t) = 0 := by simp
    have h1 : (if (mgr.tickGroups.get? none).isSome then [(none : TickerPtr)] else []).count
        (some t) = 0 := by
      split <;> simp
    rw [h0, h1]
    simp [GoMap.keys]
  refine ⟨hcases, htgs, ?_, hcount, ?_, ?_, ?_⟩
  · rw [hcases, htgs]
    cases mgr.tickGroups.get? none with
    | none =>
      simp only [Option.isSome_none, Bool.false_eq_true, if_false, List.nil_append,
        List.map_map, iff_false]
      intro hmem
      rcases List.mem_append.mp hmem with h | h
      · simp at h
      · obtain ⟨n, _, hn⟩ := List.mem_map.mp h
        simp [waitSource] at hn
    | some tg => simp [waitSource]
  · intro hnd t
    rw [hcount t]
    by_cases hmem : some t ∈ mgr.tickGroups.keys
    · have hs : (mgr.tickGroups.get? (some t)).isSome = true :=
        (assocGet_isSome_iff _ _).mpr hmem
      rw [hs, count_eq_one_of_nodup _ _ hnd hmem]
      rfl
    · have hs : ¬ (mgr.tickGroups.get? (some t)).isSome = true :=
        fun h => hmem ((assocGet_isSome_iff _ _).mp h)
      rw [if_neg hs]
      exact List.count_eq_zero.mpr hmem
  · rw [hcases]
    simp only [List.length_append, List.length_cons, List.length_nil, List.length_map]
    omega
  · intro chosen h2 hlt
    rw [hcases] at hlt
    simp only [List.length_append, List.length_cons, List.length_nil, List.length_map] at hlt
    have hin : chosen - 2 < (generateWaitList mgr m).tgs.length := by omega
    refine ⟨(generateWaitList mgr m).tgs[chosen - 2], List.getElem?_eq_getElem hin, ?_⟩
    rw [hcases, List.getElem?_append_right (by simpa using h2)]
    simp [List.getElem?_map, List.getElem?_eq_getElem hin]

/-- C22, the code at a failing input: the option `TickInterval(-1)` succeeds (it rejects
zero only), and `AddActor(a, TickInterval(-1))` on a fresh manager, with `a` not
registered, panics in `time.NewTicker`: it neither admits `a` nor returns an error.  The
same holds for every negative duration, every actor whose `BeginPlay` succeeds and every
time. -/
theorem AddActor_negative_interval_panics :
    (TickInterval (-1) { tickInterval := DefaultTickInterval }).2 = none ∧
    NewManager.stopping = false ∧ NewManager.actors.get? (Actor.object 1) = none ∧
    AddActor Capabilities.none 0 NewManager (Actor.object 1) [TickInterval (-1)] =
      (NewManager, Outcome.panicked Panic.nonPositiveTickerInterval) ∧
    (∀ (env : Capabilities) (now : Time) (a : Actor) (d : Duration), d < 0 →
      (BeginPlay env a).2 = none →
      (TickInterval d { tickInterval := DefaultTickInterval }).2 = none ∧
      (AddActor env now NewManager a [TickInterval d]).2
        = Outcome.panicked Panic.nonPositiveTickerInterval ∧
      (AddActor env now NewManager a [TickInterval d]).1.actors.get? a = none) := by
  refine ⟨by decide, by decide, by decide, by decide, ?_⟩
  intro env now a d hd hb
  have hd0 : d ≠ 0 := ne_of_lt hd
  have hle : d ≤ 0 := le_of_lt hd
  refine ⟨by simp [TickInterval, hd0], ?_, ?_⟩
  · rw [AddActor_of_BeginPlay_ok env now NewManager a _ rfl rfl hb,
      applyOptions_TickInterval d hd0]
    simp [addActorLocked, pickTicker, hd0, hle, NewManager, GoMap.get?, GoMap.entries,
      assocGet]
  · rw [AddActor_of_BeginPlay_ok env now NewManager a _ rfl rfl hb,
      applyOptions_TickInterval d hd0]
    simp [addActorLocked, pickTicker, hd0, hle, NewManager, GoMap.get?, GoMap.entries,
      assocGet]

/-! ## `Stop` called, registries not cleared -/

/-- C4, the code at a failing input (the defect of C15): a started manager holds actor 1,
whose `Tick` returns an error, and its group fires.  `Stop` has then been called, by the
panicking scheduler goroutine: `stopping` is set, and that call waits for ever.  A later
call of `Stop` returns nil at once, and after it the actor registry and both tick-group
registries still hold one entry each.  The other half of the claim holds there:
`AddActor` and `TickFrame` return `ErrManagerStopped` and change nothing. -/
theorem Stop_called_registries_not_cleared :
    (mainTickLoopFire envTickFails 100
      (StartTicking (AddActor envTickFails 5 NewManager (Actor.object 1) [TickInterval 50]).1)
      (some 0)).2 = some Outcome.blocked ∧
    (mainTickLoopFire envTickFails 100
      (StartTicking (AddActor envTickFails 5 NewManager (Actor.object 1) [TickInterval 50]).1)
      (some 0)).1.stopping = true ∧
    (Stop envTickFails (mainTickLoopFire envTickFails 100
      (StartTicking (AddActor envTickFails 5 NewManager (Actor.object 1) [TickInterval 50]).1)
      (some 0)).1).2 = Outcome.returned none ∧
    (Stop envTickFails (mainTickLoopFire envTickFails 100
      (StartTicking (AddActor envTickFails 5 NewManager (Actor.object 1) [TickInterval 50]).1)
      (some 0)).1).1.actors = GoMap.mk [(Actor.object 1, { tickGroup := some 0 })] ∧
    (Stop envTickFails (mainTickLoopFire envTickFails 100
      (StartTicking (AddActor envTickFails 5 NewManager (Actor.object 1) [TickInterval 50]).1)
      (some 0)).1).1.tickGroups
      = GoMap.mk [(some 0, { list := [Actor.object 1], lastTick := 5 })] ∧
    (Stop envTickFails (mainTickLoopFire envTickFails 100
      (StartTicking (AddActor envTickFails 5 NewManager (Actor.object 1) [TickInterval 50]).1)
      (some 0)).1).1.tickGroupTickers = GoMap.mk [(50, some 0)] ∧
    (Stop envTickFails (mainTickLoopFire envTickFails 100
      (StartTicking (AddActor envTickFails 5 NewManager (Actor.object 1) [TickInterval 50]).1)
      (some 0)).1).1.actors.len = 1 ∧
    (Stop envTickFails (mainTickLoopFire envTickFails 100
      (StartTicking (AddActor envTickFails 5 NewManager (Actor.object 1) [TickInterval 50]).1)
      (some 0)).1).1.tickGroups.len = 1 ∧
    (Stop envTickFails (mainTickLoopFire envTickFails 100
      (StartTicking (AddActor envTickFails 5 NewManager (Actor.object 1) [TickInterval 50]).1)
      (some 0)).1).1.tickGroupTickers.len = 1 ∧
    AddActor envTickFails 200 (Stop envTickFails (mainTickLoopFire envTickFails 100
      (StartTicking (AddActor envTickFails 5 NewManager (Actor.object 1) [TickInterval 50]).1)
      (some 0)).1).1 (Actor.object 2) [TickEveryFrame] =
      ((Stop envTickFails (mainTickLoopFire envTickFails 100
        (StartTicking (AddActor envTickFails 5 NewManager (Actor.object 1) [TickInterval 50]).1)
        (some 0)).1).1, Outcome.returned (some Error.ErrManagerStopped)) ∧
    TickFrame (Stop envTickFails (mainTickLoopFire envTickFails 100
      (StartTicking (AddActor envTickFails 5 NewManager (Actor.object 1) [TickInterval 50]).1)
      (some 0)).1).1 =
      ((Stop envTickFails (mainTickLoopFire envTickFails 100
        (StartTicking (AddActor envTickFails 5 NewManager (Actor.object 1) [TickInterval 50]).1)
        (some 0)).1).1, Outcome.returned (some Error.ErrManagerStopped)) := by
  decide

/-! ## One firing of a tick group -/

theorem actorTickLoop_owed (env : Capabilities) (deltaTime : Duration) (l : List Actor)
    (hok : ∀ a ∈ l, (∀ r ∈ assertIntf env.WantTick a, r.2 = none) ∧
      (env.wantsTick a = true → ∀ f ∈ assertIntf env.Tick a, f deltaTime = none)) :
    actorTickLoop env deltaTime l = (l.flatMap (owedTickEvents env deltaTime), none) := by
  induction l with
  | nil => rfl
  | cons a rest ih =>
    have ih2 := ih (fun b hb => hok b (List.mem_cons_of_mem _ hb))
    obtain ⟨hw, ht⟩ := hok a (List.mem_cons_self _ _)
    unfold actorTickLoop
    rw [ih2]
    cases hwa : assertIntf env.WantTick a with
    | none =>
      have hwant : env.wantsTick a = true := by simp [Capabilities.wantsTick, hwa]
      cases hta : assertIntf env.Tick a with
      | none =>
        simp [WantTick, Tick, hwa, hta, List.flatMap_cons, owedTickEvents]
      | some f =>
        have hf : f deltaTime = none := ht hwant f hta
        simp [WantTick, Tick, hwa, hta, hf, List.flatMap_cons, owedTickEvents, hwant]
    | some r =>
      obtain ⟨want, err⟩ := r
      have herr : err = none := hw (want, err) hwa
      subst herr
      cases want with
      | false =>
        simp [WantTick, hwa, List.flatMap_cons, owedTickEvents, Capabilities.wantsTick]
      | true =>
        have hwant : env.wantsTick a = true := by simp [Capabilities.wantsTick, hwa]
        cases hta : assertIntf env.Tick a with
        | none =>
          simp [WantTick, Tick, hwa, hta, List.flatMap_cons, owedTickEvents, hwant]
        | some f =>
          have hf : f deltaTime = none := ht hwant f hta
          simp [WantTick, Tick, hwa, hta, hf, List.flatMap_cons, owedTickEvents, hwant]

theorem Tick_mem_owedTickEvents (env : Capabilities) (deltaTime : Duration) (a b : Actor)
    (dt : Duration) :
    Event.Tick b dt ∈ owedTickEvents env deltaTime a ↔
      b = a ∧ dt = deltaTime ∧ env.wantsTick a = true ∧
        (assertIntf env.Tick a).isSome = true := by
  unfold owedTickEvents
  cases hw : (assertIntf env.WantTick a).isSome <;>
    cases hwant : env.wantsTick a <;>
      cases ht : (assertIntf env.Tick a).isSome <;> simp

theorem Tick_mem_owed_flatMap (env : Capabilities) (deltaTime : Duration) (l : List Actor)
    (b : Actor) (dt : Duration) :
    Event.Tick b dt ∈ l.flatMap (owedTickEvents env deltaTime) ↔
      b ∈ l ∧ dt = deltaTime ∧ env.wantsTick b = true ∧
        (assertIntf env.Tick b).isSome = true := by
  rw [List.mem_flatMap]
  constructor
  · rintro ⟨a, ha, hmem⟩
    obtain ⟨rfl, h2, h3, h4⟩ := (Tick_mem_owedTickEvents env deltaTime a b dt).mp hmem
    exact ⟨ha, h2, h3, h4⟩
  · rintro ⟨hb, h2, h3, h4⟩
    exact ⟨b, hb, (Tick_mem_owedTickEvents env deltaTime b b dt).mpr ⟨rfl, h2, h3, h4⟩⟩

theorem Tick_count_owed_flatMap (env : Capabilities) (deltaTime : Duration) (l : List Actor)
    (b : Actor) (hnd : l.Nodup) (hb : b ∈ l) (hw : env.wantsTick b = true)
    (ht : (assertIntf env.Tick b).isSome = true) :
    (l.flatMap (owedTickEvents env deltaTime)).count (Event.Tick b deltaTime) = 1 := by
  induction l with
  | nil => simp at hb
  | cons a rest ih =>
    rw [List.flatMap_cons, List.count_append]
    have hnd2 := List.nodup_cons.mp hnd
    by_cases hab : b = a
    · subst hab
      have hrest : (rest.flatMap (owedTickEvents env deltaTime)).count
          (Event.Tick b deltaTime) = 0 := by
        rw [List.count_eq_zero]
        intro hmem
        exact hnd2.1 ((Tick_mem_owed_flatMap env deltaTime rest b deltaTime).mp hmem).1
      rw [hrest]
      cases hwi : (assertIntf env.WantTick b).isSome <;>
        simp [owedTickEvents, hw, ht, hwi, List.count_cons]
    · have hmem : b ∈ rest := by
        rcases List.mem_cons.mp hb with h | h
        · exact absurd h hab
        · exact h
      have hhead : (owedTickEvents env deltaTime a).count (Event.Tick b deltaTime) = 0 := by
        rw [List.count_eq_zero]
        intro hm
        exact hab ((Tick_mem_owedTickEvents env deltaTime a b deltaTime).mp hm).1
      rw [hhead, ih hnd2.2 hmem]

/-- C14: one firing at time `now` of the tick group `tg` held under the key `k`, in which
no capability that is invoked fails (no `WantTick` of a member, and no `Tick` of a member
that wants the tick).  The firing ends without panic, and the trace grows by exactly
the invocations owed to the members of the snapshot, in turn.  Counted in the trace of
the manager: every member whose own `WantTick` answers true, or who has none, and who
implements `Tick`, receives exactly one more `Tick` with `deltaTime = now - tg.lastTick`;
a member whose `WantTick` answers false receives no `Tick` (whatever its `Tick` would
return) and remains a member; no actor outside the group receives a `Tick`; no `Tick`
with another `deltaTime` is made; the last-ticked timestamp of the group becomes `now`,
and the other groups and the registries are unchanged. -/
theorem tickGroupFired_ticks_members (env : Capabilities) (now : Time) (m : Manager)
    (k : TickerPtr) (tg : actorList)
    (hg : m.tickGroups.get? k = some tg) (hnd : tg.list.Nodup)
    (hok : ∀ a ∈ tg.list, (∀ r ∈ assertIntf env.WantTick a, r.2 = none) ∧
      (env.wantsTick a = true →
        ∀ f ∈ assertIntf env.Tick a, f (now - tg.lastTick) = none)) :
    (tickGroupFired env now m k).2 = none ∧
    (tickGroupFired env now m k).1.events =
      m.events ++ tg.list.flatMap (owedTickEvents env (now - tg.lastTick)) ∧
    (∀ a ∈ tg.list,
      (assertIntf env.WantTick a = none ∨ ∃ err, assertIntf env.WantTick a = some (true, err)) →
      (assertIntf env.Tick a).isSome = true →
      (tickGroupFired env now m k).1.events.count (Event.Tick a (now - tg.lastTick))
        = m.events.count (Event.Tick a (now - tg.lastTick)) + 1) ∧
    (∀ a ∈ tg.list, (∃ err, assertIntf env.WantTick a = some (false, err)) →
      ∀ dt, (tickGroupFired env now m k).1.events.count (Event.Tick a dt)
        = m.events.count (Event.Tick a dt)) ∧
    (∀ a, a ∉ tg.list →
      ∀ dt, (tickGroupFired env now m k).1.events.count (Event.Tick a dt)
        = m.events.count (Event.Tick a dt)) ∧
    (∀ a dt, dt ≠ now - tg.lastTick →
      (tickGroupFired env now m k).1.events.count (Event.Tick a dt)
        = m.events.count (Event.Tick a dt)) ∧
    (tickGroupFired env now m k).1.tickGroups.get? k = some { tg with lastTick := now } ∧
    (tickGroupFired env now m k).1.members k = tg.list ∧
    (∀ k2, k2 ≠ k → (tickGroupFired env now m k).1.tickGroups.get? k2 = m.tickGroups.get? k2) ∧
    (tickGroupFired env now m k).1.actors = m.actors ∧
    (tickGroupFired env now m k).1.tickGroupTickers = m.tickGroupTickers := by
  have hnil : m.tickGroups.isNil = false := GoMap.isNil_of_get? hg
  have hr : tickGroupFired env now m k =
      ({ m with
          events := m.events ++ tg.list.flatMap (owedTickEvents env (now - tg.lastTick))
          tickGroups := m.tickGroups.store k { tg with lastTick := now } }, none) := by
    unfold tickGroupFired
    simp only [hg, actorTickLoop_owed env (now - tg.lastTick) tg.list hok]
  have hzero : ∀ a dt,
      Event.Tick a dt ∉ tg.list.flatMap (owedTickEvents env (now - tg.lastTick)) →
      (m.events ++ tg.list.flatMap (owedTickEvents env (now - tg.lastTick))).count
        (Event.Tick a dt) = m.events.count (Event.Tick a dt) := by
    intro a dt hnot
    rw [List.count_append, List.count_eq_zero.mpr hnot, Nat.add_zero]
  rw [hr]
  refine ⟨rfl, rfl, ?_, ?_, ?_, ?_, ?_, ?_, ?_, rfl, rfl⟩
  · intro a ha hw ht
    have hwant : env.wantsTick a = true := by
      rcases hw with hw | ⟨err, hw⟩ <;> simp [Capabilities.wantsTick, hw]
    show (m.events ++ tg.list.flatMap (owedTickEvents env (now - tg.lastTick))).count _ = _
    rw [List.count_append, Tick_count_owed_flatMap env _ tg.list a hnd ha hwant ht]
  · rintro a _ ⟨err, hw⟩ dt
    apply hzero
    intro hmem
    have := ((Tick_mem_owed_flatMap env _ tg.list a dt).mp hmem).2.2.1
    simp [Capabilities.wantsTick, hw] at this
  · intro a ha dt
    apply hzero
    intro hmem
    exact ha ((Tick_mem_owed_flatMap env _ tg.list a dt).mp hmem).1
  · intro a dt hdt
    apply hzero
    intro hmem
    exact hdt ((Tick_mem_owed_flatMap env _ tg.list a dt).mp hmem).2.1
  · exact GoMap.get?_store_self _ _ _ hnil
  · simp [Manager.members, GoMap.get?_store_self _ _ _ hnil]
  · intro k2 hk2
    exact GoMap.get?_store_ne _ _ (Ne.symm hk2)

/-- Witness of C14: objects 1 and 2 share the group of ticker 0, made at time 5; object 2
answers false to `WantTick` (and its `Tick` would fail).  The group fires at time 100
without panic: object 2 is asked and not ticked, object 1 is ticked with the delta 95,
and the group is last ticked at 100. -/
theorem tickGroupFired_ticks_members_witness :
    (tickGroupFired envTicks 100
      (AddActor envTicks 6 (AddActor envTicks 5 NewManager (Actor.object 1) [TickInterval 50]).1
        (Actor.object 2) [TickInterval 50]).1 (some 0)).2 = none ∧
    (tickGroupFired envTicks 100
      (AddActor envTicks 6 (AddActor envTicks 5 NewManager (Actor.object 1) [TickInterval 50]).1
        (Actor.object 2) [TickInterval 50]).1 (some 0)).1.events =
      [Event.WantTick (Actor.object 2), Event.Tick (Actor.object 1) 95] ∧
    (tickGroupFired envTicks 100
      (AddActor envTicks 6 (AddActor envTicks 5 NewManager (Actor.object 1) [TickInterval 50]).1
        (Actor.object 2) [TickInterval 50]).1 (some 0)).1.tickGroups.get? (some 0) =
      some { list := [Actor.object 2, Actor.object 1], lastTick := 100 } :=
  have h := tickGroupFired_ticks_members envTicks 100
    (AddActor envTicks 6 (AddActor envTicks 5 NewManager (Actor.object 1) [TickInterval 50]).1
      (Actor.object 2) [TickInterval 50]).1 (some 0)
    { list := [Actor.object 2, Actor.object 1], lastTick := 5 }
    (by decide) (by decide) (by decide)
  ⟨h.1, h.2.1.trans (by decide), h.2.2.2.2.2.2.1⟩

end ActorPkg
